import Mathlib

/-!
Verification of the QMK `generate-config-h` header generator
(`lib/python/qmk/cli/generate/config_h.py`).

The generator turns a resolved keyboard configuration record into the text
of a C header whose macros are wrapped in redefinition guards.  The Python
source is embedded shallowly below: each per-field string-building function
becomes a Lean function returning the exact same string, Python's
`'\n'.join` becomes `pyJoin "\n"`, each `if field in record` presence test
becomes a small function on the corresponding `Option`, and the one
fallible operation in the source (indexing `direct_pins[0]`, which raises
`IndexError` on an empty list) is embedded with `Option`: `none` models the
uncaught runtime error.
-/

/-- Model of Python `sep.join(xs)`. -/
def pyJoin (sep : String) : List String → String
  | [] => ""
  | [x] => x
  | x :: xs => x ++ sep ++ pyJoin sep xs

/-- The input data model: `matrix_pins` sub-record.  Each cell of `direct`
is a pin-identifier string; the empty string models an empty cell. -/
structure MatrixPins where
  direct : Option (List (List String))
  cols : Option (List String)
  rows : Option (List String)

/-- The input data model: `usb` sub-record. -/
structure UsbRecord where
  vid : Option String
  pid : Option String
  device_ver : Option String

/-- The input data model: a resolved configuration record (`kb_info_json`).
Every field is optional. -/
structure ConfigRecord where
  diode_direction : Option String
  keyboard_name : Option String
  manufacturer : Option String
  matrix_pins : Option MatrixPins
  usb : Option UsbRecord

/-- Source: the `usb_properties` dict (insertion order). -/
def usb_properties : List (String × String) :=
  [("vid", "VENDOR_ID"), ("pid", "PRODUCT_ID"), ("device_ver", "DEVICE_VER")]

/-- Source: `diode_direction(diode_direction)` — the config.h lines that set
the diode direction.  (Note the source uses three spaces after `#` here.) -/
def diode_direction (v : String) : String :=
  "\n" ++ "#ifndef DIODE_DIRECTION" ++ "\n" ++
  ("#   define DIODE_DIRECTION " ++ v) ++ "\n" ++
  "#endif // DIODE_DIRECTION" ++ "\n"

/-- Source: `keyboard_name(keyboard_name)` — sets DESCRIPTION and PRODUCT,
both to the same value. -/
def keyboard_name (v : String) : String :=
  "\n" ++ "#ifndef DESCRIPTION" ++ "\n" ++
  ("#    define DESCRIPTION " ++ v) ++ "\n" ++
  "#endif // DESCRIPTION" ++ "\n" ++ "\n" ++
  "#ifndef PRODUCT" ++ "\n" ++
  ("#    define PRODUCT " ++ v) ++ "\n" ++
  "#endif // PRODUCT" ++ "\n"

/-- Source: `manufacturer(manufacturer)`. -/
def manufacturer (v : String) : String :=
  "\n" ++ "#ifndef MANUFACTURER" ++ "\n" ++
  ("#    define MANUFACTURER " ++ v) ++ "\n" ++
  "#endif // MANUFACTURER" ++ "\n"

/-- Source: `direct_pins(direct_pins)`.  A falsy (empty) cell renders as
`NO_PIN`; the column count is the length of row 0.  Python's
`direct_pins[0]` raises `IndexError` when the grid has zero rows, which is
embedded as `none` (via `List.head?`). -/
def direct_pins (dp : List (List String)) : Option String :=
  let rows := dp.map fun row =>
    "\x7b" ++ pyJoin "," (row.map fun col => if col = "" then "NO_PIN" else col) ++ "\x7d"
  dp.head?.map fun row0 =>
    "\n" ++ "#ifndef MATRIX_COLS" ++ "\n" ++
    ("#    define MATRIX_COLS " ++ Nat.repr row0.length) ++ "\n" ++
    "#endif // MATRIX_COLS" ++ "\n" ++ "\n" ++
    "#ifndef MATRIX_ROWS" ++ "\n" ++
    ("#    define MATRIX_ROWS " ++ Nat.repr dp.length) ++ "\n" ++
    "#endif // MATRIX_ROWS" ++ "\n" ++ "\n" ++
    "#ifndef DIRECT_PINS" ++ "\n" ++
    ("#    define DIRECT_PINS \x7b" ++ pyJoin "," rows ++ "\x7d") ++ "\n" ++
    "#endif // DIRECT_PINS" ++ "\n"

/-- Source: `col_pins(col_pins)`. -/
def col_pins (cp : List String) : String :=
  "\n" ++ "#ifndef MATRIX_COLS" ++ "\n" ++
  ("#    define MATRIX_COLS " ++ Nat.repr cp.length) ++ "\n" ++
  "#endif // MATRIX_COLS" ++ "\n" ++ "\n" ++
  "#ifndef MATRIX_COL_PINS" ++ "\n" ++
  ("#    define MATRIX_COL_PINS \x7b" ++ pyJoin "," cp ++ "\x7d") ++ "\n" ++
  "#endif // MATRIX_COL_PINS" ++ "\n"

/-- Source: `row_pins(row_pins)`. -/
def row_pins (rp : List String) : String :=
  "\n" ++ "#ifndef MATRIX_ROWS" ++ "\n" ++
  ("#    define MATRIX_ROWS " ++ Nat.repr rp.length) ++ "\n" ++
  "#endif // MATRIX_ROWS" ++ "\n" ++ "\n" ++
  "#ifndef MATRIX_ROW_PINS" ++ "\n" ++
  ("#    define MATRIX_ROW_PINS \x7b" ++ pyJoin "," rp ++ "\x7d") ++ "\n" ++
  "#endif // MATRIX_ROW_PINS" ++ "\n"

/-- Python's `info_name in kb_info_json['usb']` / `kb_info_json['usb'][info_name]`
for the three USB keys iterated from `usb_properties`. -/
def usb_lookup (u : UsbRecord) : String → Option String
  | "vid" => u.vid
  | "pid" => u.pid
  | "device_ver" => u.device_ver
  | _ => none

/-- Source: the `for info_name, config_name in usb_properties.items()` loop in
`generate_config_h`; each present USB field appends four lines. -/
def usb_lines (u : UsbRecord) : List String :=
  usb_properties.flatMap fun pr =>
    match usb_lookup u pr.1 with
    | some v => ["", "#ifndef " ++ pr.2, "#    define " ++ pr.2 ++ " " ++ v, "#endif // " ++ pr.2]
    | none => []

/-! Each `if field in record: config_h_lines.append(...)` of the source is
embedded as a function from the field's `Option` to the list elements it
appends (empty when absent). -/

/-- `if 'diode_direction' in kb_info_json`. -/
def dd_lines : Option String → List String
  | some v => [diode_direction v]
  | none => []

/-- `if 'keyboard_name' in kb_info_json`. -/
def kn_lines : Option String → List String
  | some v => [keyboard_name v]
  | none => []

/-- `if 'manufacturer' in kb_info_json`. -/
def mf_lines : Option String → List String
  | some v => [manufacturer v]
  | none => []

/-- `if 'direct' in kb_info_json['matrix_pins']` (fallible: `direct_pins`
raises on an empty grid). -/
def direct_lines : Option (List (List String)) → Option (List String)
  | some d => (direct_pins d).map fun s => [s]
  | none => some []

/-- `if 'cols' in kb_info_json['matrix_pins']`. -/
def cols_lines : Option (List String) → List String
  | some cp => [col_pins cp]
  | none => []

/-- `if 'rows' in kb_info_json['matrix_pins']`. -/
def rows_lines : Option (List String) → List String
  | some rp => [row_pins rp]
  | none => []

/-- The elements appended by the `if 'matrix_pins' in kb_info_json` branch:
direct, then cols, then rows. -/
def matrix_lines (mp : MatrixPins) : Option (List String) :=
  (direct_lines mp.direct).map fun dl => dl ++ cols_lines mp.cols ++ rows_lines mp.rows

/-- Presence test for `matrix_pins` itself. -/
def matrix_opt : Option MatrixPins → Option (List String)
  | some mp => matrix_lines mp
  | none => some []

/-- Presence test for `usb` itself. -/
def usb_opt : Option UsbRecord → List String
  | some u => usb_lines u
  | none => []

/-- Source: the `config_h_lines` list built by `generate_config_h` (the two
adjacent Python string literals of the first element concatenate to a single
comment line). `none` models the generation aborting with `IndexError`. -/
def config_h_lines (c : ConfigRecord) : Option (List String) :=
  (matrix_opt c.matrix_pins).map fun mx =>
    ["/* This file was generated by `qmk generate-config-h`. Do not edit or copy. */", "", "#pragma once"]
    ++ dd_lines c.diode_direction
    ++ kn_lines c.keyboard_name
    ++ mf_lines c.manufacturer
    ++ mx
    ++ usb_opt c.usb

/-- Source: `config_h = '\n'.join(config_h_lines)` — the generated header
text handed to the output sink. -/
def config_h (c : ConfigRecord) : Option String :=
  (config_h_lines c).map (pyJoin "\n")

/-! ### Lines of a text

`splitLines` decomposes a text into its newline-separated lines; claims
about "lines of the output" are stated through it. -/

/-- Auxiliary line splitter; `acc` holds the (reversed) characters of the
current line. -/
def splitLinesAux : List Char → List Char → List String
  | [], acc => [⟨acc.reverse⟩]
  | a :: cs, acc =>
    if a = '\n' then ⟨acc.reverse⟩ :: splitLinesAux cs [] else splitLinesAux cs (a :: acc)

/-- The lines of a text (splitting on the newline character). -/
def splitLines (s : String) : List String := splitLinesAux s.data []


/-! ### Infrastructure: how `splitLines` interacts with appends and joins -/

theorem splitLinesAux_append_nl (l₁ l₂ : List Char) :
    ∀ acc, splitLinesAux (l₁ ++ '\n' :: l₂) acc = splitLinesAux l₁ acc ++ splitLinesAux l₂ [] := by
  induction l₁ with
  | nil => intro acc; simp [splitLinesAux]
  | cons a cs ih =>
    intro acc
    by_cases h : a = '\n'
    · subst h; simp [splitLinesAux, ih]
    · simp [splitLinesAux, h, ih]

theorem data_append_nl (a b : String) : (a ++ "\n" ++ b).data = a.data ++ '\n' :: b.data := by
  simp [String.data_append]

theorem splitLines_append_nl (a b : String) :
    splitLines (a ++ "\n" ++ b) = splitLines a ++ splitLines b := by
  unfold splitLines
  rw [data_append_nl, splitLinesAux_append_nl]

theorem splitLines_append_nl_right (a : String) :
    splitLines (a ++ "\n") = splitLines a ++ [""] := by
  unfold splitLines
  have h : (a ++ "\n").data = a.data ++ '\n' :: [] := by simp [String.data_append]
  rw [h, splitLinesAux_append_nl]
  rfl

theorem splitLines_nl_append (b : String) : splitLines ("\n" ++ b) = "" :: splitLines b := by
  unfold splitLines
  have h : ("\n" ++ b).data = ([] : List Char) ++ '\n' :: b.data := by simp [String.data_append]
  rw [h, splitLinesAux_append_nl]
  rfl

/-- A text with no newline character. -/
def NoNL (s : String) : Prop := '\n' ∉ s.data

instance decNoNL (s : String) : Decidable (NoNL s) :=
  inferInstanceAs (Decidable ('\n' ∉ s.data))

theorem NoNL.append {a b : String} (ha : NoNL a) (hb : NoNL b) : NoNL (a ++ b) := by
  simp only [NoNL, String.data_append, List.mem_append] at *
  exact fun h => h.elim ha hb

theorem splitLinesAux_no_nl (l : List Char) (h : '\n' ∉ l) :
    ∀ acc, splitLinesAux l acc = [⟨acc.reverse ++ l⟩] := by
  induction l with
  | nil => intro acc; simp [splitLinesAux]
  | cons a cs ih =>
    intro acc
    have ha : ¬(a = '\n') := fun he => h (he ▸ List.mem_cons_self a cs)
    have hcs : '\n' ∉ cs := fun hm => h (List.mem_cons_of_mem a hm)
    simp [splitLinesAux, ha, ih hcs]

theorem splitLines_eq_self {s : String} (h : NoNL s) : splitLines s = [s] := by
  unfold splitLines
  rw [splitLinesAux_no_nl s.data h]
  rfl

theorem splitLines_pyJoin (xs : List String) (hne : xs ≠ []) :
    splitLines (pyJoin "\n" xs) = xs.flatMap splitLines := by
  induction xs with
  | nil => exact absurd rfl hne
  | cons x t ih =>
    cases t with
    | nil => simp [pyJoin, List.flatMap]
    | cons y t' =>
      have : pyJoin "\n" (x :: y :: t') = x ++ "\n" ++ pyJoin "\n" (y :: t') := rfl
      rw [this, splitLines_append_nl, ih (by simp)]
      simp [List.flatMap]

theorem NoNL_empty : NoNL "" := by simp [NoNL]

theorem digitChar_mod_ten_ne_nl (n : Nat) : Nat.digitChar (n % 10) ≠ '\n' := by
  have hm : n % 10 < 10 := Nat.mod_lt _ (by omega)
  set m := n % 10 with hmdef
  interval_cases m <;> decide

theorem NoNL_repr_aux : ∀ (fuel n : Nat) (ds : List Char), (∀ c ∈ ds, c ≠ '\n') →
    ∀ c ∈ Nat.toDigitsCore 10 fuel n ds, c ≠ '\n' := by
  intro fuel
  induction fuel with
  | zero => intro n ds hds; simpa [Nat.toDigitsCore] using hds
  | succ fuel ih =>
    intro n ds hds c hc
    rw [Nat.toDigitsCore] at hc
    by_cases h : n / 10 = 0
    · simp only [h, if_pos rfl] at hc
      rcases List.mem_cons.1 hc with h1 | h2
      · exact h1 ▸ digitChar_mod_ten_ne_nl n
      · exact hds c h2
    · simp only [if_neg h] at hc
      refine ih (n / 10) (Nat.digitChar (n % 10) :: ds) ?_ c hc
      intro a ha
      rcases List.mem_cons.1 ha with h1 | h2
      · exact h1 ▸ digitChar_mod_ten_ne_nl n
      · exact hds a h2

theorem NoNL_repr (n : Nat) : NoNL (Nat.repr n) := by
  intro hmem
  have : ('\n' : Char) ∈ Nat.toDigits 10 n := hmem
  exact NoNL_repr_aux (n + 1) n [] (by simp) '\n' this rfl

theorem NoNL_pyJoin {sep : String} (hs : NoNL sep) :
    ∀ {l : List String}, (∀ x ∈ l, NoNL x) → NoNL (pyJoin sep l)
  | [], _ => NoNL_empty
  | [x], h => by simpa [pyJoin] using h x (by simp)
  | x :: y :: t, h => by
    have hx : NoNL x := h x (by simp)
    have ht : NoNL (pyJoin sep (y :: t)) :=
      NoNL_pyJoin hs (fun a ha => h a (List.mem_cons_of_mem x ha))
    exact (hx.append hs).append ht

/-! ### The line groups each present field contributes to the output -/

/-- Lines contributed by `diode_direction`. -/
def ddBlock (v : String) : List String :=
  ["", "#ifndef DIODE_DIRECTION", "#   define DIODE_DIRECTION " ++ v, "#endif // DIODE_DIRECTION", ""]

/-- Lines contributed by `keyboard_name` (DESCRIPTION and PRODUCT). -/
def knBlock (v : String) : List String :=
  ["", "#ifndef DESCRIPTION", "#    define DESCRIPTION " ++ v, "#endif // DESCRIPTION", "",
   "#ifndef PRODUCT", "#    define PRODUCT " ++ v, "#endif // PRODUCT", ""]

/-- Lines contributed by `manufacturer`. -/
def mfBlock (v : String) : List String :=
  ["", "#ifndef MANUFACTURER", "#    define MANUFACTURER " ++ v, "#endif // MANUFACTURER", ""]

/-- Lines contributed by `matrix_pins.direct`: the column count is the length
of the first row, the row count the number of rows, and the grid renders as
brace-enclosed comma lists with `NO_PIN` for empty cells. -/
def directBlock (dp : List (List String)) : List String :=
  ["", "#ifndef MATRIX_COLS",
   "#    define MATRIX_COLS " ++ Nat.repr (dp.head?.getD []).length, "#endif // MATRIX_COLS", "",
   "#ifndef MATRIX_ROWS",
   "#    define MATRIX_ROWS " ++ Nat.repr dp.length, "#endif // MATRIX_ROWS", "",
   "#ifndef DIRECT_PINS",
   "#    define DIRECT_PINS \x7b" ++
     pyJoin "," (dp.map fun row =>
       "\x7b" ++ pyJoin "," (row.map fun col => if col = "" then "NO_PIN" else col) ++ "\x7d") ++
     "\x7d",
   "#endif // DIRECT_PINS", ""]

/-- Lines contributed by `matrix_pins.cols`. -/
def colsBlock (cp : List String) : List String :=
  ["", "#ifndef MATRIX_COLS",
   "#    define MATRIX_COLS " ++ Nat.repr cp.length, "#endif // MATRIX_COLS", "",
   "#ifndef MATRIX_COL_PINS",
   "#    define MATRIX_COL_PINS \x7b" ++ pyJoin "," cp ++ "\x7d", "#endif // MATRIX_COL_PINS", ""]

/-- Lines contributed by `matrix_pins.rows`. -/
def rowsBlock (rp : List String) : List String :=
  ["", "#ifndef MATRIX_ROWS",
   "#    define MATRIX_ROWS " ++ Nat.repr rp.length, "#endif // MATRIX_ROWS", "",
   "#ifndef MATRIX_ROW_PINS",
   "#    define MATRIX_ROW_PINS \x7b" ++ pyJoin "," rp ++ "\x7d", "#endif // MATRIX_ROW_PINS", ""]

/-- Lines contributed by one present USB field. -/
def usbBlock (name v : String) : List String :=
  ["", "#ifndef " ++ name, "#    define " ++ name ++ " " ++ v, "#endif // " ++ name]

/-! ### `splitLines` of each template -/

theorem splitLines_diode (v : String) (hv : NoNL v) :
    splitLines (diode_direction v) = ddBlock v := by
  have h1 : NoNL ("#   define DIODE_DIRECTION " ++ v) := NoNL.append (by decide) hv
  simp only [diode_direction, splitLines_append_nl_right, splitLines_append_nl,
    splitLines_nl_append, splitLines_eq_self h1,
    splitLines_eq_self (show NoNL "#ifndef DIODE_DIRECTION" by decide),
    splitLines_eq_self (show NoNL "#endif // DIODE_DIRECTION" by decide)]
  rfl

theorem splitLines_keyboard_name (v : String) (hv : NoNL v) :
    splitLines (keyboard_name v) = knBlock v := by
  have h1 : NoNL ("#    define DESCRIPTION " ++ v) := NoNL.append (by decide) hv
  have h2 : NoNL ("#    define PRODUCT " ++ v) := NoNL.append (by decide) hv
  simp only [keyboard_name, splitLines_append_nl_right, splitLines_append_nl,
    splitLines_nl_append, splitLines_eq_self h1, splitLines_eq_self h2,
    splitLines_eq_self (show NoNL "#ifndef DESCRIPTION" by decide),
    splitLines_eq_self (show NoNL "#endif // DESCRIPTION" by decide),
    splitLines_eq_self (show NoNL "#ifndef PRODUCT" by decide),
    splitLines_eq_self (show NoNL "#endif // PRODUCT" by decide)]
  rfl

theorem splitLines_manufacturer (v : String) (hv : NoNL v) :
    splitLines (manufacturer v) = mfBlock v := by
  have h1 : NoNL ("#    define MANUFACTURER " ++ v) := NoNL.append (by decide) hv
  simp only [manufacturer, splitLines_append_nl_right, splitLines_append_nl,
    splitLines_nl_append, splitLines_eq_self h1,
    splitLines_eq_self (show NoNL "#ifndef MANUFACTURER" by decide),
    splitLines_eq_self (show NoNL "#endif // MANUFACTURER" by decide)]
  rfl

theorem splitLines_col_pins (cp : List String) (hv : ∀ x ∈ cp, NoNL x) :
    splitLines (col_pins cp) = colsBlock cp := by
  have h1 : NoNL ("#    define MATRIX_COLS " ++ Nat.repr cp.length) :=
    NoNL.append (by decide) (NoNL_repr _)
  have h2 : NoNL ("#    define MATRIX_COL_PINS \x7b" ++ pyJoin "," cp ++ "\x7d") :=
    NoNL.append (NoNL.append (by decide) (NoNL_pyJoin (by decide) hv)) (by decide)
  simp only [col_pins, splitLines_append_nl_right, splitLines_append_nl,
    splitLines_nl_append, splitLines_eq_self h1, splitLines_eq_self h2,
    splitLines_eq_self (show NoNL "#ifndef MATRIX_COLS" by decide),
    splitLines_eq_self (show NoNL "#endif // MATRIX_COLS" by decide),
    splitLines_eq_self (show NoNL "#ifndef MATRIX_COL_PINS" by decide),
    splitLines_eq_self (show NoNL "#endif // MATRIX_COL_PINS" by decide)]
  rfl

theorem splitLines_row_pins (rp : List String) (hv : ∀ x ∈ rp, NoNL x) :
    splitLines (row_pins rp) = rowsBlock rp := by
  have h1 : NoNL ("#    define MATRIX_ROWS " ++ Nat.repr rp.length) :=
    NoNL.append (by decide) (NoNL_repr _)
  have h2 : NoNL ("#    define MATRIX_ROW_PINS \x7b" ++ pyJoin "," rp ++ "\x7d") :=
    NoNL.append (NoNL.append (by decide) (NoNL_pyJoin (by decide) hv)) (by decide)
  simp only [row_pins, splitLines_append_nl_right, splitLines_append_nl,
    splitLines_nl_append, splitLines_eq_self h1, splitLines_eq_self h2,
    splitLines_eq_self (show NoNL "#ifndef MATRIX_ROWS" by decide),
    splitLines_eq_self (show NoNL "#endif // MATRIX_ROWS" by decide),
    splitLines_eq_self (show NoNL "#ifndef MATRIX_ROW_PINS" by decide),
    splitLines_eq_self (show NoNL "#endif // MATRIX_ROW_PINS" by decide)]
  rfl

theorem rowStrings_NoNL (dp : List (List String)) (hv : ∀ row ∈ dp, ∀ col ∈ row, NoNL col) :
    ∀ rs ∈ dp.map (fun row =>
      "\x7b" ++ pyJoin "," (row.map fun col => if col = "" then "NO_PIN" else col) ++ "\x7d"),
      NoNL rs := by
  intro rs hrs
  obtain ⟨row, hrow, rfl⟩ := List.mem_map.1 hrs
  refine NoNL.append (NoNL.append (by decide) (NoNL_pyJoin (by decide) ?_)) (by decide)
  intro x hx
  obtain ⟨col, hcol, rfl⟩ := List.mem_map.1 hx
  by_cases hc : col = ""
  · rw [if_pos hc]; decide
  · rw [if_neg hc]; exact hv row hrow col hcol

theorem splitLines_direct_pins (dp : List (List String)) (row0 : List String)
    (h : dp.head? = some row0) (hv : ∀ row ∈ dp, ∀ col ∈ row, NoNL col) :
    (direct_pins dp).map splitLines = some (directBlock dp) := by
  have h1 : NoNL ("#    define MATRIX_COLS " ++ Nat.repr row0.length) :=
    NoNL.append (by decide) (NoNL_repr _)
  have h2 : NoNL ("#    define MATRIX_ROWS " ++ Nat.repr dp.length) :=
    NoNL.append (by decide) (NoNL_repr _)
  have h3 : NoNL ("#    define DIRECT_PINS \x7b" ++
      pyJoin "," (dp.map fun row =>
        "\x7b" ++ pyJoin "," (row.map fun col => if col = "" then "NO_PIN" else col) ++ "\x7d") ++
      "\x7d") :=
    NoNL.append (NoNL.append (by decide)
      (NoNL_pyJoin (by decide) (rowStrings_NoNL dp hv))) (by decide)
  unfold direct_pins directBlock
  rw [h]
  simp only [Option.map_some', Option.getD_some, Option.some.injEq]
  simp only [splitLines_append_nl_right, splitLines_append_nl, splitLines_nl_append,
    splitLines_eq_self h1, splitLines_eq_self h2, splitLines_eq_self h3,
    splitLines_eq_self (show NoNL "#ifndef MATRIX_COLS" by decide),
    splitLines_eq_self (show NoNL "#endif // MATRIX_COLS" by decide),
    splitLines_eq_self (show NoNL "#ifndef MATRIX_ROWS" by decide),
    splitLines_eq_self (show NoNL "#endif // MATRIX_ROWS" by decide),
    splitLines_eq_self (show NoNL "#ifndef DIRECT_PINS" by decide),
    splitLines_eq_self (show NoNL "#endif // DIRECT_PINS" by decide)]
  rfl

/-! ### Sanity predicates on the input record -/

/-- Boolean check that a string has no newline. -/
def noNLb (s : String) : Bool := s.data.all fun a => a != '\n'

theorem noNLb_iff (s : String) : noNLb s = true ↔ NoNL s := by
  simp only [noNLb, NoNL, List.all_eq_true, bne_iff_ne]
  exact ⟨fun h hm => h _ hm rfl, fun h a ha he => h (he ▸ ha)⟩

/-- Newline-freedom of the matrix sub-record. -/
def noNLmp : Option MatrixPins → Bool
  | some mp =>
    (mp.direct.all fun d => d.all fun row => row.all noNLb) &&
    (mp.cols.all fun l => l.all noNLb) && (mp.rows.all fun l => l.all noNLb)
  | none => true

/-- Newline-freedom of the USB sub-record. -/
def noNLusb : Option UsbRecord → Bool
  | some u => u.vid.all noNLb && u.pid.all noNLb && u.device_ver.all noNLb
  | none => true

/-- All string values present in the record are newline-free.  (A value with
an embedded newline would smuggle extra lines into the output.) -/
def noNLRecord (c : ConfigRecord) : Bool :=
  c.diode_direction.all noNLb && c.keyboard_name.all noNLb && c.manufacturer.all noNLb &&
  noNLmp c.matrix_pins && noNLusb c.usb

/-- The `direct` grid, when present, is non-empty. -/
def directOKo : Option (List (List String)) → Bool
  | some d => !d.isEmpty
  | none => true

def directOKmp : Option MatrixPins → Bool
  | some mp => directOKo mp.direct
  | none => true

/-- If `matrix_pins.direct` is present it is non-empty — the condition under
which the source's `direct_pins[0]` does not raise. -/
def directOK (c : ConfigRecord) : Bool := directOKmp c.matrix_pins

theorem optAll {o : Option String} (h : o.all noNLb = true) : ∀ v ∈ o, NoNL v := by
  cases o with
  | none => intro v hv; simp at hv
  | some w =>
    intro v hv
    have hw : w = v := by simpa using hv
    subst hw
    exact (noNLb_iff w).1 (by simpa [Option.all] using h)

theorem listAll {l : List String} (h : l.all noNLb = true) : ∀ v ∈ l, NoNL v :=
  fun v hv => (noNLb_iff v).1 (List.all_eq_true.1 h v hv)

theorem gridAll {d : List (List String)} (h : (d.all fun row => row.all noNLb) = true) :
    ∀ row ∈ d, ∀ col ∈ row, NoNL col :=
  fun row hrow => listAll (List.all_eq_true.1 h row hrow)

/-! ### The full expected line structure of the output -/

/-- Per-field expected blocks, absent fields contributing nothing. -/
def dd_blocks : Option String → List String
  | some v => ddBlock v
  | none => []

def kn_blocks : Option String → List String
  | some v => knBlock v
  | none => []

def mf_blocks : Option String → List String
  | some v => mfBlock v
  | none => []

def direct_blocks : Option (List (List String)) → List String
  | some d => directBlock d
  | none => []

def cols_blocks : Option (List String) → List String
  | some cp => colsBlock cp
  | none => []

def rows_blocks : Option (List String) → List String
  | some rp => rowsBlock rp
  | none => []

def usbv_blocks (name : String) : Option String → List String
  | some v => usbBlock name v
  | none => []

/-- USB line groups in the fixed `usb_properties` order. -/
def usbLinesModel (u : UsbRecord) : List String :=
  usbv_blocks "VENDOR_ID" u.vid ++ usbv_blocks "PRODUCT_ID" u.pid ++
    usbv_blocks "DEVICE_VER" u.device_ver

theorem usb_lines_eq (u : UsbRecord) : usb_lines u = usbLinesModel u := by
  obtain ⟨vid, pid, dv⟩ := u
  cases vid <;> cases pid <;> cases dv <;> rfl

/-- Matrix line groups: direct, then cols, then rows. -/
def matrixBlocks (mp : MatrixPins) : List String :=
  direct_blocks mp.direct ++ cols_blocks mp.cols ++ rows_blocks mp.rows

def matrix_blocks_opt : Option MatrixPins → List String
  | some mp => matrixBlocks mp
  | none => []

def usb_blocks : Option UsbRecord → List String
  | some u => usbLinesModel u
  | none => []

/-- The fixed three-line prologue of every generated header. -/
def headerLines : List String :=
  ["/* This file was generated by `qmk generate-config-h`. Do not edit or copy. */", "", "#pragma once"]

/-- The lines of the generated header, field block by field block. -/
def expectedLines (c : ConfigRecord) : List String :=
  headerLines
  ++ dd_blocks c.diode_direction
  ++ kn_blocks c.keyboard_name
  ++ mf_blocks c.manufacturer
  ++ matrix_blocks_opt c.matrix_pins
  ++ usb_blocks c.usb

/-! ### The flatMap of each optional part -/

theorem usbBlock_flatMap (name v : String) (hn : NoNL name) (hv : NoNL v) :
    (usbBlock name v).flatMap splitLines = usbBlock name v := by
  have h1 : NoNL ("#ifndef " ++ name) := NoNL.append (by decide) hn
  have h2 : NoNL ("#    define " ++ name ++ " " ++ v) :=
    ((NoNL.append (by decide) hn).append (by decide)).append hv
  have h3 : NoNL ("#endif // " ++ name) := NoNL.append (by decide) hn
  simp [usbBlock, splitLines_eq_self h1, splitLines_eq_self h2, splitLines_eq_self h3,
    splitLines_eq_self (show NoNL "" by decide)]

theorem usbv_flatMap (name : String) (hname : NoNL name) (o : Option String)
    (h : ∀ v ∈ o, NoNL v) :
    (usbv_blocks name o).flatMap splitLines = usbv_blocks name o := by
  cases o with
  | none => rfl
  | some v => exact usbBlock_flatMap name v hname (h v rfl)

theorem usb_flatMap (u : UsbRecord) (h1 : ∀ v ∈ u.vid, NoNL v) (h2 : ∀ v ∈ u.pid, NoNL v)
    (h3 : ∀ v ∈ u.device_ver, NoNL v) :
    (usb_lines u).flatMap splitLines = usbLinesModel u := by
  rw [usb_lines_eq]
  unfold usbLinesModel
  simp only [List.flatMap_append]
  rw [usbv_flatMap _ (by decide) _ h1, usbv_flatMap _ (by decide) _ h2,
    usbv_flatMap _ (by decide) _ h3]

theorem usb_opt_flatMap (ub : Option UsbRecord)
    (h1 : ∀ u ∈ ub, ∀ v ∈ u.vid, NoNL v) (h2 : ∀ u ∈ ub, ∀ v ∈ u.pid, NoNL v)
    (h3 : ∀ u ∈ ub, ∀ v ∈ u.device_ver, NoNL v) :
    (usb_opt ub).flatMap splitLines = usb_blocks ub := by
  cases ub with
  | none => rfl
  | some u => exact usb_flatMap u (h1 u rfl) (h2 u rfl) (h3 u rfl)

theorem dd_flatMap (o : Option String) (h : ∀ v ∈ o, NoNL v) :
    (dd_lines o).flatMap splitLines = dd_blocks o := by
  cases o with
  | none => rfl
  | some v => simp [dd_lines, dd_blocks, splitLines_diode v (h v rfl)]

theorem kn_flatMap (o : Option String) (h : ∀ v ∈ o, NoNL v) :
    (kn_lines o).flatMap splitLines = kn_blocks o := by
  cases o with
  | none => rfl
  | some v => simp [kn_lines, kn_blocks, splitLines_keyboard_name v (h v rfl)]

theorem mf_flatMap (o : Option String) (h : ∀ v ∈ o, NoNL v) :
    (mf_lines o).flatMap splitLines = mf_blocks o := by
  cases o with
  | none => rfl
  | some v => simp [mf_lines, mf_blocks, splitLines_manufacturer v (h v rfl)]

theorem cols_flatMap (o : Option (List String)) (h : ∀ l ∈ o, ∀ x ∈ l, NoNL x) :
    (cols_lines o).flatMap splitLines = cols_blocks o := by
  cases o with
  | none => rfl
  | some cp => simp [cols_lines, cols_blocks, splitLines_col_pins cp (h cp rfl)]

theorem rows_flatMap (o : Option (List String)) (h : ∀ l ∈ o, ∀ x ∈ l, NoNL x) :
    (rows_lines o).flatMap splitLines = rows_blocks o := by
  cases o with
  | none => rfl
  | some rp => simp [rows_lines, rows_blocks, splitLines_row_pins rp (h rp rfl)]

/-! ### Extraction lemmas for the sanity predicates -/

theorem optAllP {α : Type} {p : α → Bool} {o : Option α} (h : o.all p = true) :
    ∀ x ∈ o, p x = true := by
  cases o with
  | none => intro x hx; simp at hx
  | some w =>
    intro x hx
    have hw : w = x := by simpa using hx
    subst hw
    simpa [Option.all] using h

theorem noNLmp_direct {m : Option MatrixPins} (h : noNLmp m = true) :
    ∀ mp ∈ m, ∀ d ∈ mp.direct, ∀ row ∈ d, ∀ col ∈ row, NoNL col := by
  intro mp hmp
  cases m with
  | none => simp at hmp
  | some mp' =>
    have : mp' = mp := by simpa using hmp
    subst this
    simp only [noNLmp, Bool.and_eq_true] at h
    obtain ⟨⟨ha, _⟩, _⟩ := h
    exact fun d hd => gridAll (optAllP ha d hd)

theorem noNLmp_cols {m : Option MatrixPins} (h : noNLmp m = true) :
    ∀ mp ∈ m, ∀ l ∈ mp.cols, ∀ x ∈ l, NoNL x := by
  intro mp hmp
  cases m with
  | none => simp at hmp
  | some mp' =>
    have : mp' = mp := by simpa using hmp
    subst this
    simp only [noNLmp, Bool.and_eq_true] at h
    obtain ⟨⟨_, hb⟩, _⟩ := h
    exact fun l hl => listAll (optAllP hb l hl)

theorem noNLmp_rows {m : Option MatrixPins} (h : noNLmp m = true) :
    ∀ mp ∈ m, ∀ l ∈ mp.rows, ∀ x ∈ l, NoNL x := by
  intro mp hmp
  cases m with
  | none => simp at hmp
  | some mp' =>
    have : mp' = mp := by simpa using hmp
    subst this
    simp only [noNLmp, Bool.and_eq_true] at h
    obtain ⟨⟨_, _⟩, hc⟩ := h
    exact fun l hl => listAll (optAllP hc l hl)

theorem noNLusb_vid {ub : Option UsbRecord} (h : noNLusb ub = true) :
    ∀ u ∈ ub, ∀ v ∈ u.vid, NoNL v := by
  intro u hu
  cases ub with
  | none => simp at hu
  | some u' =>
    have : u' = u := by simpa using hu
    subst this
    simp only [noNLusb, Bool.and_eq_true] at h
    exact optAll h.1.1

theorem noNLusb_pid {ub : Option UsbRecord} (h : noNLusb ub = true) :
    ∀ u ∈ ub, ∀ v ∈ u.pid, NoNL v := by
  intro u hu
  cases ub with
  | none => simp at hu
  | some u' =>
    have : u' = u := by simpa using hu
    subst this
    simp only [noNLusb, Bool.and_eq_true] at h
    exact optAll h.1.2

theorem noNLusb_dv {ub : Option UsbRecord} (h : noNLusb ub = true) :
    ∀ u ∈ ub, ∀ v ∈ u.device_ver, NoNL v := by
  intro u hu
  cases ub with
  | none => simp at hu
  | some u' =>
    have : u' = u := by simpa using hu
    subst this
    simp only [noNLusb, Bool.and_eq_true] at h
    exact optAll h.2

/-! ### Existence of the output (generation succeeds iff `direct` never
indexes an empty grid) -/

theorem direct_lines_some (o : Option (List (List String))) (hd : directOKo o = true) :
    ∃ dl, direct_lines o = some dl := by
  cases o with
  | none => exact ⟨[], rfl⟩
  | some d =>
    cases d with
    | nil => simp [directOKo] at hd
    | cons r t => exact ⟨_, rfl⟩

theorem matrix_opt_some (m : Option MatrixPins) (hd : directOKmp m = true) :
    ∃ mx, matrix_opt m = some mx := by
  cases m with
  | none => exact ⟨[], rfl⟩
  | some mp =>
    obtain ⟨dl, hdl⟩ := direct_lines_some mp.direct hd
    show ∃ mx, matrix_lines mp = some mx
    unfold matrix_lines
    rw [hdl]
    exact ⟨_, rfl⟩

theorem config_h_some (c : ConfigRecord) (hd : directOK c = true) :
    ∃ s, config_h c = some s := by
  obtain ⟨mx, hmx⟩ := matrix_opt_some c.matrix_pins hd
  unfold config_h config_h_lines
  rw [hmx]
  exact ⟨_, rfl⟩

/-! ### The master correspondence: lines of the output -/

theorem direct_lines_spec (o : Option (List (List String))) (hd : directOKo o = true)
    (hv : ∀ d ∈ o, ∀ row ∈ d, ∀ col ∈ row, NoNL col) :
    ∃ dl, direct_lines o = some dl ∧ dl.flatMap splitLines = direct_blocks o := by
  cases o with
  | none => exact ⟨[], rfl, rfl⟩
  | some d =>
    cases d with
    | nil => simp [directOKo] at hd
    | cons r0 t =>
      have hm := splitLines_direct_pins (r0 :: t) r0 rfl (hv _ rfl)
      cases hdir : direct_pins (r0 :: t) with
      | none => rw [hdir] at hm; simp at hm
      | some str =>
        rw [hdir] at hm
        simp only [Option.map_some', Option.some.injEq] at hm
        refine ⟨[str], ?_, ?_⟩
        · simp [direct_lines, hdir]
        · simp [direct_blocks, hm]

theorem matrix_lines_spec (mp : MatrixPins) (hd : directOKo mp.direct = true)
    (hvd : ∀ d ∈ mp.direct, ∀ row ∈ d, ∀ col ∈ row, NoNL col)
    (hvc : ∀ l ∈ mp.cols, ∀ x ∈ l, NoNL x) (hvr : ∀ l ∈ mp.rows, ∀ x ∈ l, NoNL x) :
    ∃ mx, matrix_lines mp = some mx ∧ mx.flatMap splitLines = matrixBlocks mp := by
  obtain ⟨dl, hdl, hdlf⟩ := direct_lines_spec mp.direct hd hvd
  refine ⟨dl ++ cols_lines mp.cols ++ rows_lines mp.rows, ?_, ?_⟩
  · simp [matrix_lines, hdl]
  · simp only [List.flatMap_append, hdlf, cols_flatMap _ hvc, rows_flatMap _ hvr, matrixBlocks]

theorem matrix_opt_spec (m : Option MatrixPins) (hd : directOKmp m = true)
    (hvd : ∀ mp ∈ m, ∀ d ∈ mp.direct, ∀ row ∈ d, ∀ col ∈ row, NoNL col)
    (hvc : ∀ mp ∈ m, ∀ l ∈ mp.cols, ∀ x ∈ l, NoNL x)
    (hvr : ∀ mp ∈ m, ∀ l ∈ mp.rows, ∀ x ∈ l, NoNL x) :
    ∃ mx, matrix_opt m = some mx ∧ mx.flatMap splitLines = matrix_blocks_opt m := by
  cases m with
  | none => exact ⟨[], rfl, rfl⟩
  | some mp =>
    obtain ⟨mx, h1, h2⟩ := matrix_lines_spec mp hd (hvd mp rfl) (hvc mp rfl) (hvr mp rfl)
    exact ⟨mx, by simpa [matrix_opt] using h1, by simpa [matrix_blocks_opt] using h2⟩

theorem config_h_spec (c : ConfigRecord) (hn : noNLRecord c = true) (hd : directOK c = true) :
    (config_h c).map splitLines = some (expectedLines c) := by
  simp only [noNLRecord, Bool.and_eq_true] at hn
  obtain ⟨⟨⟨⟨hn1, hn2⟩, hn3⟩, hn4⟩, hn5⟩ := hn
  obtain ⟨mx, hmx, hmxf⟩ := matrix_opt_spec c.matrix_pins hd
    (noNLmp_direct hn4) (noNLmp_cols hn4) (noNLmp_rows hn4)
  unfold config_h config_h_lines
  rw [hmx]
  simp only [Option.map_some']
  congr 1
  rw [splitLines_pyJoin _ (by simp)]
  simp only [List.flatMap_append, List.flatMap_cons, List.flatMap_nil]
  rw [splitLines_eq_self (show NoNL
      "/* This file was generated by `qmk generate-config-h`. Do not edit or copy. */" by decide),
    splitLines_eq_self (show NoNL "" by decide),
    splitLines_eq_self (show NoNL "#pragma once" by decide),
    dd_flatMap _ (optAll hn1), kn_flatMap _ (optAll hn2), mf_flatMap _ (optAll hn3),
    hmxf, usb_opt_flatMap _ (noNLusb_vid hn5) (noNLusb_pid hn5) (noNLusb_dv hn5)]
  unfold expectedLines headerLines
  simp

/-! ### C preprocessor line shapes: detecting `#define` and `#ifndef` lines -/

/-- Drop leading space characters. -/
def dropSpaces : List Char → List Char
  | '\x20' :: cs => dropSpaces cs
  | cs => cs

/-- If the line is a `#define` directive (`#`, optional spaces, `define`,
then the macro name up to the next space), return the macro name. -/
def defineName? (s : String) : Option String :=
  if s.data.head? = some '#' then
    let r := dropSpaces s.data.tail
    if r.take 7 = "define ".data then some ⟨(r.drop 7).takeWhile fun a => a != '\x20'⟩
    else none
  else none

/-- If the line is `#ifndef NAME`, return NAME. -/
def ifndefName? (s : String) : Option String :=
  if s.data.take 8 = "#ifndef ".data then some ⟨s.data.drop 8⟩ else none

/-- The macro names of the `#ifndef` lines, in order. -/
def ifndefNames (ls : List String) : List String := ls.filterMap ifndefName?


theorem dropSpaces_spaces (l₁ : List Char) (h : ∀ a ∈ l₁, a = '\x20') (l₂ : List Char) :
    dropSpaces (l₁ ++ l₂) = dropSpaces l₂ := by
  induction l₁ with
  | nil => rfl
  | cons a cs ih =>
    have ha : a = '\x20' := h a (by simp)
    subst ha
    simp only [List.cons_append, dropSpaces]
    exact ih (fun x hx => h x (by simp [hx]))

theorem dropSpaces_cons_of_ne (a : Char) (l : List Char) (h : ¬(a = '\x20')) :
    dropSpaces (a :: l) = a :: l := by
  unfold dropSpaces
  split <;> simp_all

theorem takeWhile_name (n : List Char) (h : ∀ a ∈ n, a ≠ '\x20') (l : List Char) :
    (n ++ '\x20' :: l).takeWhile (fun a => a != '\x20') = n := by
  induction n with
  | nil => simp [List.takeWhile_cons]
  | cons a cs ih =>
    have ha : (a != '\x20') = true := by
      simpa [bne_iff_ne] using h a (by simp)
    simp only [List.cons_append, List.takeWhile_cons, ha]
    rw [ih (fun x hx => h x (by simp [hx]))]
    simp

theorem defineName_eq (s : String) (sp : List Char) (name : String) (rest : List Char)
    (hdata : s.data = '#' :: (sp ++ ("define ".data ++ (name.data ++ ('\x20' :: rest)))))
    (hsp : ∀ a ∈ sp, a = '\x20') (hname : ∀ a ∈ name.data, a ≠ '\x20') :
    defineName? s = some name := by
  unfold defineName?
  rw [hdata]
  simp only [List.head?_cons, List.tail_cons, if_pos rfl]
  have hda : dropSpaces (sp ++ ("define ".data ++ (name.data ++ ('\x20' :: rest))))
      = "define ".data ++ (name.data ++ ('\x20' :: rest)) := by
    rw [dropSpaces_spaces sp hsp]
    have : "define ".data ++ (name.data ++ ('\x20' :: rest))
        = 'd' :: ("efine ".data ++ (name.data ++ ('\x20' :: rest))) := rfl
    rw [this, dropSpaces_cons_of_ne _ _ (by decide)]
  simp only [hda]
  have ht : ("define ".data ++ (name.data ++ ('\x20' :: rest))).take 7 = "define ".data := by
    rw [show 7 = ("define ".data).length from rfl, List.take_left]
  have hd : ("define ".data ++ (name.data ++ ('\x20' :: rest))).drop 7
      = name.data ++ ('\x20' :: rest) := by
    rw [show 7 = ("define ".data).length from rfl, List.drop_left]
  rw [ht, if_pos rfl, hd, takeWhile_name name.data hname rest]
  simp

theorem defineName_line (pre : String) (sp : List Char) (name : String)
    (hpre : pre.data = '#' :: (sp ++ ("define ".data ++ (name.data ++ ['\x20']))))
    (hsp : ∀ a ∈ sp, a = '\x20') (hname : ∀ a ∈ name.data, a ≠ '\x20')
    (v : String) :
    defineName? (pre ++ v) = some name := by
  apply defineName_eq _ sp name v.data _ hsp hname
  rw [String.data_append, hpre]
  simp [List.append_assoc]

theorem defineName_line2 (pre : String) (sp : List Char) (name : String)
    (hpre : pre.data = '#' :: (sp ++ ("define ".data ++ (name.data ++ ['\x20', '\x7b']))))
    (hsp : ∀ a ∈ sp, a = '\x20') (hname : ∀ a ∈ name.data, a ≠ '\x20')
    (v w : String) :
    defineName? (pre ++ v ++ w) = some name := by
  apply defineName_eq _ sp name ('\x7b' :: (v.data ++ w.data)) _ hsp hname
  rw [String.data_append, String.data_append, hpre]
  simp [List.append_assoc]

theorem defineName_usb (name : String) (hname : ∀ a ∈ name.data, a ≠ '\x20') (v : String) :
    defineName? ("#    define " ++ name ++ " " ++ v) = some name := by
  apply defineName_eq _ ['\x20', '\x20', '\x20', '\x20'] name v.data _ (by decide) hname
  simp [String.data_append, List.append_assoc]

theorem defineName_none_head (s : String) (c : Char) (rest : List Char)
    (hdata : s.data = '#' :: c :: rest) (hsp : c ≠ '\x20') (hd : c ≠ 'd') :
    defineName? s = none := by
  unfold defineName?
  rw [hdata]
  show (if (dropSpaces (c :: rest)).take 7 = ("define " : String).data then
      some (⟨((dropSpaces (c :: rest)).drop 7).takeWhile fun a => a != '\x20'⟩ : String)
    else none) = none
  rw [dropSpaces_cons_of_ne c rest hsp]
  have hne : ¬((c :: rest).take 7 = ("define " : String).data) := by
    intro heq
    have h7 : (c :: rest).take 7 = c :: rest.take 6 := List.take_succ_cons
    rw [h7] at heq
    have hc : c = 'd' := by
      have := congrArg List.head? heq
      simpa using this
    exact hd hc
  rw [if_neg hne]

theorem defineName_ifndef (n : String) : defineName? ("#ifndef " ++ n) = none := by
  apply defineName_none_head _ 'i' ("fndef ".data ++ n.data)
  · rw [String.data_append, show ("#ifndef " : String).data = '#' :: 'i' :: "fndef ".data from rfl]
    rfl
  · decide
  · decide

theorem defineName_endif (n : String) : defineName? ("#endif // " ++ n) = none := by
  apply defineName_none_head _ 'e' ("ndif // ".data ++ n.data)
  · rw [String.data_append, show ("#endif // " : String).data = '#' :: 'e' :: "ndif // ".data from rfl]
    rfl
  · decide
  · decide

/-! ### `#ifndef` line shapes -/

theorem ifndefName_some (n : String) : ifndefName? ("#ifndef " ++ n) = some n := by
  unfold ifndefName?
  rw [String.data_append, show (8 : Nat) = ("#ifndef " : String).data.length from rfl,
    List.take_left, List.drop_left, if_pos rfl]

theorem ifndefName_none_append (p v : String) (h8 : 8 ≤ p.data.length)
    (hne : p.data.take 8 ≠ ("#ifndef " : String).data) : ifndefName? (p ++ v) = none := by
  unfold ifndefName?
  rw [String.data_append, List.take_append_of_le_length h8, if_neg hne]

theorem ifndefName_none_append2 (p v w : String) (h8 : 8 ≤ p.data.length)
    (hne : p.data.take 8 ≠ ("#ifndef " : String).data) : ifndefName? (p ++ v ++ w) = none := by
  unfold ifndefName?
  rw [String.data_append, String.data_append, List.append_assoc,
    List.take_append_of_le_length h8, if_neg hne]

/-! ### Guardedness of a list of lines (claim C1's property) -/

/-- A line is properly flanked: if it is a `#define NAME` line, the previous
line is `#ifndef NAME` and the next line is `#endif // NAME`. -/
def flanked (prev next : Option String) (cur : String) : Bool :=
  match defineName? cur with
  | none => true
  | some n => prev == some ("#ifndef " ++ n) && next == some ("#endif // " ++ n)

/-- Check every line of the list with its actual neighbours. -/
def guardedAux : Option String → List String → Bool
  | _, [] => true
  | prev, [x] => flanked prev none x
  | prev, x :: y :: rest => flanked prev (some y) x && guardedAux (some x) (y :: rest)

/-- Every `#define` line is immediately preceded by its `#ifndef` guard and
followed by its `#endif` close — no unguarded `#define` anywhere. -/
def guardedLines (ls : List String) : Bool := guardedAux none ls


theorem flanked_of_none {p n : Option String} {x : String} (h : defineName? x = none) :
    flanked p n x = true := by
  simp [flanked, h]

theorem guardedAux_prev (p q : Option String) {ls : List String}
    (h : ∀ x ∈ ls.head?, defineName? x = none) : guardedAux p ls = guardedAux q ls := by
  cases ls with
  | nil => rfl
  | cons x t =>
    have hx : defineName? x = none := h x rfl
    cases t with
    | nil => simp [guardedAux, flanked_of_none hx]
    | cons y t' => simp [guardedAux, flanked_of_none hx]

theorem guardedAux_append {p : Option String} {xs ys : List String}
    (hx : guardedAux p xs = true)
    (hxl : ∀ x ∈ xs.getLast?, defineName? x = none)
    (hy : guardedAux none ys = true)
    (hyh : ∀ y ∈ ys.head?, defineName? y = none) :
    guardedAux p (xs ++ ys) = true := by
  induction xs generalizing p with
  | nil =>
    rw [List.nil_append, guardedAux_prev p none hyh]
    exact hy
  | cons x t ih =>
    cases t with
    | nil =>
      have hxd : defineName? x = none := hxl x rfl
      cases ys with
      | nil => simpa using hx
      | cons y t' =>
        show guardedAux p (x :: y :: t') = true
        simp only [guardedAux, Bool.and_eq_true]
        refine ⟨flanked_of_none hxd, ?_⟩
        rw [guardedAux_prev (some x) none hyh]
        exact hy
    | cons x2 t2 =>
      have hx' := hx
      simp only [guardedAux, Bool.and_eq_true] at hx'
      show guardedAux p (x :: ((x2 :: t2) ++ ys)) = true
      have : (x2 :: t2) ++ ys = x2 :: (t2 ++ ys) := rfl
      rw [this]
      simp only [guardedAux, Bool.and_eq_true]
      refine ⟨hx'.1, ?_⟩
      have hxl' : ∀ a ∈ (x2 :: t2).getLast?, defineName? a = none := by
        intro a ha
        exact hxl a (by rw [List.getLast?_cons_cons]; exact ha)
      have := ih hx'.2 hxl'
      rw [this] at *
      exact ih hx'.2 hxl'

/-- A block of lines that is internally guarded and whose first and last
lines are not `#define` lines; such blocks compose under append. -/
def chunkOK (ls : List String) : Prop :=
  guardedAux none ls = true ∧ (∀ x ∈ ls.head?, defineName? x = none) ∧
    (∀ x ∈ ls.getLast?, defineName? x = none)

theorem chunkOK_nil : chunkOK [] := ⟨rfl, by simp, by simp⟩

theorem chunkOK_append {xs ys : List String} (hx : chunkOK xs) (hy : chunkOK ys) :
    chunkOK (xs ++ ys) := by
  obtain ⟨hx1, hx2, hx3⟩ := hx
  obtain ⟨hy1, hy2, hy3⟩ := hy
  refine ⟨guardedAux_append hx1 hx3 hy1 hy2, ?_, ?_⟩
  · cases xs with
    | nil => simpa using hy2
    | cons a t =>
      intro x hxm
      have : a = x := by simpa using hxm
      exact this ▸ hx2 a rfl
  · cases ys with
    | nil => simpa using hx3
    | cons b t =>
      intro x hxm
      rw [List.getLast?_append] at hxm
      cases hbl : (b :: t).getLast? with
      | none => simp [List.getLast?_eq_none_iff] at hbl
      | some z =>
        rw [hbl] at hxm
        have hz : z = x := by simpa using hxm
        exact hz ▸ hy3 z (by rw [hbl]; rfl)

theorem mem_head_none (ls : List String) (a : String) (hh : ls.head? = some a)
    (ha : defineName? a = none) : ∀ x ∈ ls.head?, defineName? x = none := by
  intro x hx
  rw [hh] at hx
  have : a = x := by simpa using hx
  exact this ▸ ha

theorem mem_last_none (ls : List String) (b : String) (hl : ls.getLast? = some b)
    (hb : defineName? b = none) : ∀ x ∈ ls.getLast?, defineName? x = none := by
  intro x hx
  rw [hl] at hx
  have : b = x := by simpa using hx
  exact this ▸ hb

theorem chunkOK_header : chunkOK headerLines := by
  refine ⟨by decide, mem_head_none headerLines
    "/* This file was generated by `qmk generate-config-h`. Do not edit or copy. */" rfl rfl,
    mem_last_none headerLines "#pragma once" rfl rfl⟩

theorem chunkOK_ddBlock (v : String) : chunkOK (ddBlock v) := by
  have hD := defineName_line "#   define DIODE_DIRECTION " ['\x20', '\x20', '\x20']
    "DIODE_DIRECTION" rfl (by decide) (by decide) v
  refine ⟨?_, mem_head_none (ddBlock v) "" rfl rfl, mem_last_none (ddBlock v) "" rfl rfl⟩
  show guardedAux none ["", "#ifndef DIODE_DIRECTION", "#   define DIODE_DIRECTION " ++ v,
    "#endif // DIODE_DIRECTION", ""] = true
  simp only [guardedAux, flanked, hD, show defineName? "" = none from rfl,
    show defineName? "#ifndef DIODE_DIRECTION" = none from rfl,
    show defineName? "#endif // DIODE_DIRECTION" = none from rfl]
  decide

theorem chunkOK_knBlock (v : String) : chunkOK (knBlock v) := by
  have hD1 := defineName_line "#    define DESCRIPTION " ['\x20', '\x20', '\x20', '\x20']
    "DESCRIPTION" rfl (by decide) (by decide) v
  have hD2 := defineName_line "#    define PRODUCT " ['\x20', '\x20', '\x20', '\x20']
    "PRODUCT" rfl (by decide) (by decide) v
  refine ⟨?_, mem_head_none (knBlock v) "" rfl rfl, mem_last_none (knBlock v) "" rfl rfl⟩
  show guardedAux none ["", "#ifndef DESCRIPTION", "#    define DESCRIPTION " ++ v,
    "#endif // DESCRIPTION", "", "#ifndef PRODUCT", "#    define PRODUCT " ++ v,
    "#endif // PRODUCT", ""] = true
  simp only [guardedAux, flanked, hD1, hD2, show defineName? "" = none from rfl,
    show defineName? "#ifndef DESCRIPTION" = none from rfl,
    show defineName? "#endif // DESCRIPTION" = none from rfl,
    show defineName? "#ifndef PRODUCT" = none from rfl,
    show defineName? "#endif // PRODUCT" = none from rfl]
  decide

theorem chunkOK_mfBlock (v : String) : chunkOK (mfBlock v) := by
  have hD := defineName_line "#    define MANUFACTURER " ['\x20', '\x20', '\x20', '\x20']
    "MANUFACTURER" rfl (by decide) (by decide) v
  refine ⟨?_, mem_head_none (mfBlock v) "" rfl rfl, mem_last_none (mfBlock v) "" rfl rfl⟩
  show guardedAux none ["", "#ifndef MANUFACTURER", "#    define MANUFACTURER " ++ v,
    "#endif // MANUFACTURER", ""] = true
  simp only [guardedAux, flanked, hD, show defineName? "" = none from rfl,
    show defineName? "#ifndef MANUFACTURER" = none from rfl,
    show defineName? "#endif // MANUFACTURER" = none from rfl]
  decide

theorem chunkOK_directBlock (dp : List (List String)) : chunkOK (directBlock dp) := by
  have hC := defineName_line "#    define MATRIX_COLS " ['\x20', '\x20', '\x20', '\x20']
    "MATRIX_COLS" rfl (by decide) (by decide) (Nat.repr (dp.head?.getD []).length)
  have hR := defineName_line "#    define MATRIX_ROWS " ['\x20', '\x20', '\x20', '\x20']
    "MATRIX_ROWS" rfl (by decide) (by decide) (Nat.repr dp.length)
  have hP := defineName_line2 "#    define DIRECT_PINS \x7b" ['\x20', '\x20', '\x20', '\x20']
    "DIRECT_PINS" rfl (by decide) (by decide)
    (pyJoin "," (dp.map fun row =>
      "\x7b" ++ pyJoin "," (row.map fun col => if col = "" then "NO_PIN" else col) ++ "\x7d")) "\x7d"
  refine ⟨?_, mem_head_none (directBlock dp) "" rfl rfl,
    mem_last_none (directBlock dp) "" rfl rfl⟩
  show guardedAux none (directBlock dp) = true
  unfold directBlock
  simp only [guardedAux, flanked, hC, hR, hP, show defineName? "" = none from rfl,
    show defineName? "#ifndef MATRIX_COLS" = none from rfl,
    show defineName? "#endif // MATRIX_COLS" = none from rfl,
    show defineName? "#ifndef MATRIX_ROWS" = none from rfl,
    show defineName? "#endif // MATRIX_ROWS" = none from rfl,
    show defineName? "#ifndef DIRECT_PINS" = none from rfl,
    show defineName? "#endif // DIRECT_PINS" = none from rfl]
  decide

theorem chunkOK_colsBlock (cp : List String) : chunkOK (colsBlock cp) := by
  have hC := defineName_line "#    define MATRIX_COLS " ['\x20', '\x20', '\x20', '\x20']
    "MATRIX_COLS" rfl (by decide) (by decide) (Nat.repr cp.length)
  have hP := defineName_line2 "#    define MATRIX_COL_PINS \x7b" ['\x20', '\x20', '\x20', '\x20']
    "MATRIX_COL_PINS" rfl (by decide) (by decide) (pyJoin "," cp) "\x7d"
  refine ⟨?_, mem_head_none (colsBlock cp) "" rfl rfl,
    mem_last_none (colsBlock cp) "" rfl rfl⟩
  show guardedAux none (colsBlock cp) = true
  unfold colsBlock
  simp only [guardedAux, flanked, hC, hP, show defineName? "" = none from rfl,
    show defineName? "#ifndef MATRIX_COLS" = none from rfl,
    show defineName? "#endif // MATRIX_COLS" = none from rfl,
    show defineName? "#ifndef MATRIX_COL_PINS" = none from rfl,
    show defineName? "#endif // MATRIX_COL_PINS" = none from rfl]
  decide

theorem chunkOK_rowsBlock (rp : List String) : chunkOK (rowsBlock rp) := by
  have hR := defineName_line "#    define MATRIX_ROWS " ['\x20', '\x20', '\x20', '\x20']
    "MATRIX_ROWS" rfl (by decide) (by decide) (Nat.repr rp.length)
  have hP := defineName_line2 "#    define MATRIX_ROW_PINS \x7b" ['\x20', '\x20', '\x20', '\x20']
    "MATRIX_ROW_PINS" rfl (by decide) (by decide) (pyJoin "," rp) "\x7d"
  refine ⟨?_, mem_head_none (rowsBlock rp) "" rfl rfl,
    mem_last_none (rowsBlock rp) "" rfl rfl⟩
  show guardedAux none (rowsBlock rp) = true
  unfold rowsBlock
  simp only [guardedAux, flanked, hR, hP, show defineName? "" = none from rfl,
    show defineName? "#ifndef MATRIX_ROWS" = none from rfl,
    show defineName? "#endif // MATRIX_ROWS" = none from rfl,
    show defineName? "#ifndef MATRIX_ROW_PINS" = none from rfl,
    show defineName? "#endif // MATRIX_ROW_PINS" = none from rfl]
  decide

theorem chunkOK_usbBlock (name v : String) (hname : ∀ a ∈ name.data, a ≠ '\x20') :
    chunkOK (usbBlock name v) := by
  have hD := defineName_usb name hname v
  have hI := defineName_ifndef name
  have hE := defineName_endif name
  refine ⟨?_, mem_head_none (usbBlock name v) "" rfl rfl,
    mem_last_none (usbBlock name v) ("#endif // " ++ name) rfl hE⟩
  show guardedAux none ["", "#ifndef " ++ name, "#    define " ++ name ++ " " ++ v,
    "#endif // " ++ name] = true
  simp only [guardedAux, flanked, hD, hI, hE, show defineName? "" = none from rfl]
  simp

theorem chunkOK_dd (o : Option String) : chunkOK (dd_blocks o) := by
  cases o with
  | none => exact chunkOK_nil
  | some v => exact chunkOK_ddBlock v

theorem chunkOK_kn (o : Option String) : chunkOK (kn_blocks o) := by
  cases o with
  | none => exact chunkOK_nil
  | some v => exact chunkOK_knBlock v

theorem chunkOK_mf (o : Option String) : chunkOK (mf_blocks o) := by
  cases o with
  | none => exact chunkOK_nil
  | some v => exact chunkOK_mfBlock v

theorem chunkOK_direct (o : Option (List (List String))) : chunkOK (direct_blocks o) := by
  cases o with
  | none => exact chunkOK_nil
  | some d => exact chunkOK_directBlock d

theorem chunkOK_cols (o : Option (List String)) : chunkOK (cols_blocks o) := by
  cases o with
  | none => exact chunkOK_nil
  | some cp => exact chunkOK_colsBlock cp

theorem chunkOK_rows (o : Option (List String)) : chunkOK (rows_blocks o) := by
  cases o with
  | none => exact chunkOK_nil
  | some rp => exact chunkOK_rowsBlock rp

theorem chunkOK_usbv (name : String) (hname : ∀ a ∈ name.data, a ≠ '\x20')
    (o : Option String) : chunkOK (usbv_blocks name o) := by
  cases o with
  | none => exact chunkOK_nil
  | some v => exact chunkOK_usbBlock name v hname

theorem chunkOK_usbModel (u : UsbRecord) : chunkOK (usbLinesModel u) :=
  chunkOK_append (chunkOK_append (chunkOK_usbv "VENDOR_ID" (by decide) u.vid)
    (chunkOK_usbv "PRODUCT_ID" (by decide) u.pid)) (chunkOK_usbv "DEVICE_VER" (by decide) u.device_ver)

theorem chunkOK_usb_blocks (ub : Option UsbRecord) : chunkOK (usb_blocks ub) := by
  cases ub with
  | none => exact chunkOK_nil
  | some u => exact chunkOK_usbModel u

theorem chunkOK_matrixBlocks (mp : MatrixPins) : chunkOK (matrixBlocks mp) :=
  chunkOK_append (chunkOK_append (chunkOK_direct mp.direct) (chunkOK_cols mp.cols))
    (chunkOK_rows mp.rows)

theorem chunkOK_matrix_blocks_opt (m : Option MatrixPins) : chunkOK (matrix_blocks_opt m) := by
  cases m with
  | none => exact chunkOK_nil
  | some mp => exact chunkOK_matrixBlocks mp

theorem chunkOK_expected (c : ConfigRecord) : chunkOK (expectedLines c) := by
  unfold expectedLines
  exact chunkOK_append (chunkOK_append (chunkOK_append (chunkOK_append
    (chunkOK_append chunkOK_header (chunkOK_dd _)) (chunkOK_kn _)) (chunkOK_mf _))
    (chunkOK_matrix_blocks_opt _)) (chunkOK_usb_blocks _)

/-! ### The ordered macro names introduced by the output's `#ifndef` lines -/

theorem ifndefNames_append (xs ys : List String) :
    ifndefNames (xs ++ ys) = ifndefNames xs ++ ifndefNames ys :=
  List.filterMap_append xs ys ifndefName?

theorem ifndefName_usb_define (name v : String) :
    ifndefName? ("#    define " ++ name ++ " " ++ v) = none := by
  apply ifndefName_none_append
  · simp [String.data_append]
  · simp only [String.data_append, List.append_assoc]
    rw [List.take_append_of_le_length (by decide)]
    decide

theorem ifndefNames_ddBlock (v : String) : ifndefNames (ddBlock v) = ["DIODE_DIRECTION"] := by
  have h := ifndefName_none_append "#   define DIODE_DIRECTION " v (by decide) (by decide)
  simp [ifndefNames, ddBlock, h,
    show ifndefName? "" = none from rfl,
    show ifndefName? "#ifndef DIODE_DIRECTION" = some "DIODE_DIRECTION" from rfl,
    show ifndefName? "#endif // DIODE_DIRECTION" = none from rfl]

theorem ifndefNames_knBlock (v : String) :
    ifndefNames (knBlock v) = ["DESCRIPTION", "PRODUCT"] := by
  have h1 := ifndefName_none_append "#    define DESCRIPTION " v (by decide) (by decide)
  have h2 := ifndefName_none_append "#    define PRODUCT " v (by decide) (by decide)
  simp [ifndefNames, knBlock, h1, h2,
    show ifndefName? "" = none from rfl,
    show ifndefName? "#ifndef DESCRIPTION" = some "DESCRIPTION" from rfl,
    show ifndefName? "#endif // DESCRIPTION" = none from rfl,
    show ifndefName? "#ifndef PRODUCT" = some "PRODUCT" from rfl,
    show ifndefName? "#endif // PRODUCT" = none from rfl]

theorem ifndefNames_mfBlock (v : String) : ifndefNames (mfBlock v) = ["MANUFACTURER"] := by
  have h := ifndefName_none_append "#    define MANUFACTURER " v (by decide) (by decide)
  simp [ifndefNames, mfBlock, h,
    show ifndefName? "" = none from rfl,
    show ifndefName? "#ifndef MANUFACTURER" = some "MANUFACTURER" from rfl,
    show ifndefName? "#endif // MANUFACTURER" = none from rfl]

theorem ifndefNames_directBlock (dp : List (List String)) :
    ifndefNames (directBlock dp) = ["MATRIX_COLS", "MATRIX_ROWS", "DIRECT_PINS"] := by
  have h1 := ifndefName_none_append "#    define MATRIX_COLS "
    (Nat.repr (dp.head?.getD []).length) (by decide) (by decide)
  have h2 := ifndefName_none_append "#    define MATRIX_ROWS " (Nat.repr dp.length)
    (by decide) (by decide)
  have h3 := ifndefName_none_append2 "#    define DIRECT_PINS \x7b"
    (pyJoin "," (dp.map fun row =>
      "\x7b" ++ pyJoin "," (row.map fun col => if col = "" then "NO_PIN" else col) ++ "\x7d"))
    "\x7d" (by decide) (by decide)
  simp [ifndefNames, directBlock, h1, h2, h3,
    show ifndefName? "" = none from rfl,
    show ifndefName? "#ifndef MATRIX_COLS" = some "MATRIX_COLS" from rfl,
    show ifndefName? "#endif // MATRIX_COLS" = none from rfl,
    show ifndefName? "#ifndef MATRIX_ROWS" = some "MATRIX_ROWS" from rfl,
    show ifndefName? "#endif // MATRIX_ROWS" = none from rfl,
    show ifndefName? "#ifndef DIRECT_PINS" = some "DIRECT_PINS" from rfl,
    show ifndefName? "#endif // DIRECT_PINS" = none from rfl]

theorem ifndefNames_colsBlock (cp : List String) :
    ifndefNames (colsBlock cp) = ["MATRIX_COLS", "MATRIX_COL_PINS"] := by
  have h1 := ifndefName_none_append "#    define MATRIX_COLS " (Nat.repr cp.length)
    (by decide) (by decide)
  have h2 := ifndefName_none_append2 "#    define MATRIX_COL_PINS \x7b" (pyJoin "," cp) "\x7d"
    (by decide) (by decide)
  simp [ifndefNames, colsBlock, h1, h2,
    show ifndefName? "" = none from rfl,
    show ifndefName? "#ifndef MATRIX_COLS" = some "MATRIX_COLS" from rfl,
    show ifndefName? "#endif // MATRIX_COLS" = none from rfl,
    show ifndefName? "#ifndef MATRIX_COL_PINS" = some "MATRIX_COL_PINS" from rfl,
    show ifndefName? "#endif // MATRIX_COL_PINS" = none from rfl]

theorem ifndefNames_rowsBlock (rp : List String) :
    ifndefNames (rowsBlock rp) = ["MATRIX_ROWS", "MATRIX_ROW_PINS"] := by
  have h1 := ifndefName_none_append "#    define MATRIX_ROWS " (Nat.repr rp.length)
    (by decide) (by decide)
  have h2 := ifndefName_none_append2 "#    define MATRIX_ROW_PINS \x7b" (pyJoin "," rp) "\x7d"
    (by decide) (by decide)
  simp [ifndefNames, rowsBlock, h1, h2,
    show ifndefName? "" = none from rfl,
    show ifndefName? "#ifndef MATRIX_ROWS" = some "MATRIX_ROWS" from rfl,
    show ifndefName? "#endif // MATRIX_ROWS" = none from rfl,
    show ifndefName? "#ifndef MATRIX_ROW_PINS" = some "MATRIX_ROW_PINS" from rfl,
    show ifndefName? "#endif // MATRIX_ROW_PINS" = none from rfl]

theorem ifndefNames_usbBlock (name v : String) : ifndefNames (usbBlock name v) = [name] := by
  simp [ifndefNames, usbBlock, ifndefName_some name, ifndefName_usb_define name v,
    ifndefName_none_append "#endif // " name (by decide) (by decide),
    show ifndefName? "" = none from rfl]

/-! ### The fixed macro order (the spec's ordering property) -/

def dd_names : Option String → List String
  | some _ => ["DIODE_DIRECTION"]
  | none => []

def kn_names : Option String → List String
  | some _ => ["DESCRIPTION", "PRODUCT"]
  | none => []

def mf_names : Option String → List String
  | some _ => ["MANUFACTURER"]
  | none => []

def direct_names : Option (List (List String)) → List String
  | some _ => ["MATRIX_COLS", "MATRIX_ROWS", "DIRECT_PINS"]
  | none => []

def cols_names : Option (List String) → List String
  | some _ => ["MATRIX_COLS", "MATRIX_COL_PINS"]
  | none => []

def rows_names : Option (List String) → List String
  | some _ => ["MATRIX_ROWS", "MATRIX_ROW_PINS"]
  | none => []

def usbv_names (name : String) : Option String → List String
  | some _ => [name]
  | none => []

def mp_names (mp : MatrixPins) : List String :=
  direct_names mp.direct ++ cols_names mp.cols ++ rows_names mp.rows

def mp_names_opt : Option MatrixPins → List String
  | some mp => mp_names mp
  | none => []

def usb_names (u : UsbRecord) : List String :=
  usbv_names "VENDOR_ID" u.vid ++ usbv_names "PRODUCT_ID" u.pid ++
    usbv_names "DEVICE_VER" u.device_ver

def usb_names_opt : Option UsbRecord → List String
  | some u => usb_names u
  | none => []

/-- The spec's fixed macro-block order: diode direction, name, manufacturer,
matrix (direct, then cols, then rows), USB (vid, pid, device_ver). -/
def macroOrder (c : ConfigRecord) : List String :=
  dd_names c.diode_direction ++ kn_names c.keyboard_name ++ mf_names c.manufacturer
  ++ mp_names_opt c.matrix_pins ++ usb_names_opt c.usb

theorem names_dd (o : Option String) : ifndefNames (dd_blocks o) = dd_names o := by
  cases o with
  | none => rfl
  | some v => exact ifndefNames_ddBlock v

theorem names_kn (o : Option String) : ifndefNames (kn_blocks o) = kn_names o := by
  cases o with
  | none => rfl
  | some v => exact ifndefNames_knBlock v

theorem names_mf (o : Option String) : ifndefNames (mf_blocks o) = mf_names o := by
  cases o with
  | none => rfl
  | some v => exact ifndefNames_mfBlock v

theorem names_direct (o : Option (List (List String))) :
    ifndefNames (direct_blocks o) = direct_names o := by
  cases o with
  | none => rfl
  | some d => exact ifndefNames_directBlock d

theorem names_cols (o : Option (List String)) : ifndefNames (cols_blocks o) = cols_names o := by
  cases o with
  | none => rfl
  | some cp => exact ifndefNames_colsBlock cp

theorem names_rows (o : Option (List String)) : ifndefNames (rows_blocks o) = rows_names o := by
  cases o with
  | none => rfl
  | some rp => exact ifndefNames_rowsBlock rp

theorem names_usbv (name : String) (o : Option String) :
    ifndefNames (usbv_blocks name o) = usbv_names name o := by
  cases o with
  | none => rfl
  | some v => exact ifndefNames_usbBlock name v

theorem names_usbModel (u : UsbRecord) : ifndefNames (usbLinesModel u) = usb_names u := by
  unfold usbLinesModel usb_names
  rw [ifndefNames_append, ifndefNames_append, names_usbv, names_usbv, names_usbv]

theorem names_usb_blocks (ub : Option UsbRecord) :
    ifndefNames (usb_blocks ub) = usb_names_opt ub := by
  cases ub with
  | none => rfl
  | some u => exact names_usbModel u

theorem names_matrixBlocks (mp : MatrixPins) : ifndefNames (matrixBlocks mp) = mp_names mp := by
  unfold matrixBlocks mp_names
  rw [ifndefNames_append, ifndefNames_append, names_direct, names_cols, names_rows]

theorem names_matrix_opt (m : Option MatrixPins) :
    ifndefNames (matrix_blocks_opt m) = mp_names_opt m := by
  cases m with
  | none => rfl
  | some mp => exact names_matrixBlocks mp

theorem ifndefNames_expected (c : ConfigRecord) :
    ifndefNames (expectedLines c) = macroOrder c := by
  unfold expectedLines macroOrder
  rw [ifndefNames_append, ifndefNames_append, ifndefNames_append, ifndefNames_append,
    ifndefNames_append, names_dd, names_kn, names_mf, names_matrix_opt, names_usb_blocks,
    show ifndefNames headerLines = [] from rfl]
  simp

/-! ### Optional fields as first-class values (for the field-independence claim) -/

/-- The nine optional leaf fields of a ConfigRecord. -/
inductive CfgField where
  | diode
  | name
  | manu
  | direct
  | cols
  | rows
  | vid
  | pid
  | devver
deriving DecidableEq

/-- Is the field present in the record? -/
def presentField : CfgField → ConfigRecord → Bool
  | .diode, c => c.diode_direction.isSome
  | .name, c => c.keyboard_name.isSome
  | .manu, c => c.manufacturer.isSome
  | .direct, c => (c.matrix_pins.map fun mp => mp.direct.isSome).getD false
  | .cols, c => (c.matrix_pins.map fun mp => mp.cols.isSome).getD false
  | .rows, c => (c.matrix_pins.map fun mp => mp.rows.isSome).getD false
  | .vid, c => (c.usb.map fun u => u.vid.isSome).getD false
  | .pid, c => (c.usb.map fun u => u.pid.isSome).getD false
  | .devver, c => (c.usb.map fun u => u.device_ver.isSome).getD false

/-- Remove the field from the record (leaving everything else unchanged). -/
def eraseField : CfgField → ConfigRecord → ConfigRecord
  | .diode, c => ⟨none, c.keyboard_name, c.manufacturer, c.matrix_pins, c.usb⟩
  | .name, c => ⟨c.diode_direction, none, c.manufacturer, c.matrix_pins, c.usb⟩
  | .manu, c => ⟨c.diode_direction, c.keyboard_name, none, c.matrix_pins, c.usb⟩
  | .direct, c => ⟨c.diode_direction, c.keyboard_name, c.manufacturer,
      c.matrix_pins.map fun mp => ⟨none, mp.cols, mp.rows⟩, c.usb⟩
  | .cols, c => ⟨c.diode_direction, c.keyboard_name, c.manufacturer,
      c.matrix_pins.map fun mp => ⟨mp.direct, none, mp.rows⟩, c.usb⟩
  | .rows, c => ⟨c.diode_direction, c.keyboard_name, c.manufacturer,
      c.matrix_pins.map fun mp => ⟨mp.direct, mp.cols, none⟩, c.usb⟩
  | .vid, c => ⟨c.diode_direction, c.keyboard_name, c.manufacturer, c.matrix_pins,
      c.usb.map fun u => ⟨none, u.pid, u.device_ver⟩⟩
  | .pid, c => ⟨c.diode_direction, c.keyboard_name, c.manufacturer, c.matrix_pins,
      c.usb.map fun u => ⟨u.vid, none, u.device_ver⟩⟩
  | .devver, c => ⟨c.diode_direction, c.keyboard_name, c.manufacturer, c.matrix_pins,
      c.usb.map fun u => ⟨u.vid, u.pid, none⟩⟩

/-- The consecutive elements of the source's `config_h_lines` list that the
field contributes (its "macro block"). -/
def fieldElems : CfgField → ConfigRecord → List String
  | .diode, c => dd_lines c.diode_direction
  | .name, c => kn_lines c.keyboard_name
  | .manu, c => mf_lines c.manufacturer
  | .direct, c => (c.matrix_pins.map fun mp => (direct_lines mp.direct).getD []).getD []
  | .cols, c => (c.matrix_pins.map fun mp => cols_lines mp.cols).getD []
  | .rows, c => (c.matrix_pins.map fun mp => rows_lines mp.rows).getD []
  | .vid, c => (c.usb.map fun u => usbv_blocks "VENDOR_ID" u.vid).getD []
  | .pid, c => (c.usb.map fun u => usbv_blocks "PRODUCT_ID" u.pid).getD []
  | .devver, c => (c.usb.map fun u => usbv_blocks "DEVICE_VER" u.device_ver).getD []

/-- Removing a present field deletes exactly its block of elements from the
generated list and leaves everything else in place. -/
theorem field_frame (c : ConfigRecord) (f : CfgField) (hp : presentField f c = true)
    (hd : directOK c = true) :
    ∃ A B, config_h c = some (pyJoin "\n" (A ++ fieldElems f c ++ B)) ∧
      config_h (eraseField f c) = some (pyJoin "\n" (A ++ B)) := by
  obtain ⟨dd, kn, mf, m, ub⟩ := c
  cases f with
  | diode =>
    simp only [presentField] at hp
    obtain ⟨v, hdd⟩ := Option.isSome_iff_exists.1 hp
    obtain ⟨mx, hmx⟩ := matrix_opt_some m hd
    subst hdd
    refine ⟨headerLines, kn_lines kn ++ mf_lines mf ++ mx ++ usb_opt ub, ?_, ?_⟩
    · simp [config_h, config_h_lines, hmx, fieldElems, dd_lines, headerLines, List.append_assoc]
    · simp [config_h, config_h_lines, eraseField, hmx, dd_lines, headerLines, List.append_assoc]
  | name =>
    simp only [presentField] at hp
    obtain ⟨v, hkn⟩ := Option.isSome_iff_exists.1 hp
    obtain ⟨mx, hmx⟩ := matrix_opt_some m hd
    subst hkn
    refine ⟨headerLines ++ dd_lines dd, mf_lines mf ++ mx ++ usb_opt ub, ?_, ?_⟩
    · simp [config_h, config_h_lines, hmx, fieldElems, kn_lines, headerLines, List.append_assoc]
    · simp [config_h, config_h_lines, eraseField, hmx, kn_lines, headerLines, List.append_assoc]
  | manu =>
    simp only [presentField] at hp
    obtain ⟨v, hmf⟩ := Option.isSome_iff_exists.1 hp
    obtain ⟨mx, hmx⟩ := matrix_opt_some m hd
    subst hmf
    refine ⟨headerLines ++ dd_lines dd ++ kn_lines kn, mx ++ usb_opt ub, ?_, ?_⟩
    · simp [config_h, config_h_lines, hmx, fieldElems, mf_lines, headerLines, List.append_assoc]
    · simp [config_h, config_h_lines, eraseField, hmx, mf_lines, headerLines, List.append_assoc]
  | direct =>
    simp only [presentField] at hp
    cases m with
    | none => simp at hp
    | some mp =>
      simp only [Option.map_some', Option.getD_some] at hp
      obtain ⟨d, hdp⟩ := Option.isSome_iff_exists.1 hp
      have hd' : directOKo mp.direct = true := hd
      rw [hdp] at hd'
      cases d with
      | nil => simp [directOKo] at hd'
      | cons r t =>
        cases hdir : direct_pins (r :: t) with
        | none => simp [direct_pins] at hdir
        | some str =>
          refine ⟨headerLines ++ dd_lines dd ++ kn_lines kn ++ mf_lines mf,
            cols_lines mp.cols ++ rows_lines mp.rows ++ usb_opt ub, ?_, ?_⟩
          · simp [config_h, config_h_lines, matrix_opt, matrix_lines, hdp, direct_lines,
              hdir, fieldElems, headerLines, List.append_assoc]
          · simp [config_h, config_h_lines, eraseField, matrix_opt, matrix_lines,
              direct_lines, headerLines, List.append_assoc]
  | cols =>
    simp only [presentField] at hp
    cases m with
    | none => simp at hp
    | some mp =>
      simp only [Option.map_some', Option.getD_some] at hp
      obtain ⟨cp, hcp⟩ := Option.isSome_iff_exists.1 hp
      obtain ⟨dl, hdl⟩ := direct_lines_some mp.direct hd
      refine ⟨headerLines ++ dd_lines dd ++ kn_lines kn ++ mf_lines mf ++ dl,
        rows_lines mp.rows ++ usb_opt ub, ?_, ?_⟩
      · simp [config_h, config_h_lines, matrix_opt, matrix_lines, hdl, hcp, cols_lines,
          fieldElems, headerLines, List.append_assoc]
      · simp [config_h, config_h_lines, eraseField, matrix_opt, matrix_lines, hdl,
          cols_lines, headerLines, List.append_assoc]
  | rows =>
    simp only [presentField] at hp
    cases m with
    | none => simp at hp
    | some mp =>
      simp only [Option.map_some', Option.getD_some] at hp
      obtain ⟨rp, hrp⟩ := Option.isSome_iff_exists.1 hp
      obtain ⟨dl, hdl⟩ := direct_lines_some mp.direct hd
      refine ⟨headerLines ++ dd_lines dd ++ kn_lines kn ++ mf_lines mf ++ dl
        ++ cols_lines mp.cols, usb_opt ub, ?_, ?_⟩
      · simp [config_h, config_h_lines, matrix_opt, matrix_lines, hdl, hrp, rows_lines,
          fieldElems, headerLines, List.append_assoc]
      · simp [config_h, config_h_lines, eraseField, matrix_opt, matrix_lines, hdl,
          rows_lines, headerLines, List.append_assoc]
  | vid =>
    obtain ⟨mx, hmx⟩ := matrix_opt_some m hd
    cases ub with
    | none => simp [presentField] at hp
    | some u =>
      refine ⟨headerLines ++ dd_lines dd ++ kn_lines kn ++ mf_lines mf ++ mx,
        usbv_blocks "PRODUCT_ID" u.pid ++ usbv_blocks "DEVICE_VER" u.device_ver, ?_, ?_⟩
      · simp [config_h, config_h_lines, hmx, usb_opt, usb_lines_eq, usbLinesModel,
          fieldElems, headerLines, List.append_assoc]
      · simp [config_h, config_h_lines, eraseField, hmx, usb_opt, usb_lines_eq,
          usbLinesModel, usbv_blocks, headerLines, List.append_assoc]
  | pid =>
    obtain ⟨mx, hmx⟩ := matrix_opt_some m hd
    cases ub with
    | none => simp [presentField] at hp
    | some u =>
      refine ⟨headerLines ++ dd_lines dd ++ kn_lines kn ++ mf_lines mf ++ mx
        ++ usbv_blocks "VENDOR_ID" u.vid, usbv_blocks "DEVICE_VER" u.device_ver, ?_, ?_⟩
      · simp [config_h, config_h_lines, hmx, usb_opt, usb_lines_eq, usbLinesModel,
          fieldElems, headerLines, List.append_assoc]
      · simp [config_h, config_h_lines, eraseField, hmx, usb_opt, usb_lines_eq,
          usbLinesModel, usbv_blocks, headerLines, List.append_assoc]
  | devver =>
    obtain ⟨mx, hmx⟩ := matrix_opt_some m hd
    cases ub with
    | none => simp [presentField] at hp
    | some u =>
      refine ⟨headerLines ++ dd_lines dd ++ kn_lines kn ++ mf_lines mf ++ mx
        ++ usbv_blocks "VENDOR_ID" u.vid ++ usbv_blocks "PRODUCT_ID" u.pid, [], ?_, ?_⟩
      · simp [config_h, config_h_lines, hmx, usb_opt, usb_lines_eq, usbLinesModel,
          fieldElems, headerLines, List.append_assoc]
      · simp [config_h, config_h_lines, eraseField, hmx, usb_opt, usb_lines_eq,
          usbLinesModel, usbv_blocks, headerLines, List.append_assoc]

/-! ### Remaining shared support lemmas -/

theorem config_h_names (c : ConfigRecord) (hn : noNLRecord c = true) (hd : directOK c = true) :
    (config_h c).map (fun s => ifndefNames (splitLines s)) = some (macroOrder c) := by
  have hm := config_h_spec c hn hd
  have hcomp : (config_h c).map (fun s => ifndefNames (splitLines s))
      = ((config_h c).map splitLines).map ifndefNames := by
    cases config_h c <;> rfl
  rw [hcomp, hm, Option.map_some', ifndefNames_expected]

theorem config_h_lines_shape (c : ConfigRecord) (els : List String)
    (h : config_h_lines c = some els) :
    ∃ R, els = "/* This file was generated by `qmk generate-config-h`. Do not edit or copy. */"
      :: "" :: "#pragma once" :: R := by
  unfold config_h_lines at h
  cases hmx : matrix_opt c.matrix_pins with
  | none => rw [hmx] at h; simp at h
  | some mx =>
    rw [hmx] at h
    simp only [Option.map_some', Option.some.injEq] at h
    refine ⟨dd_lines c.diode_direction ++ (kn_lines c.keyboard_name ++
      (mf_lines c.manufacturer ++ (mx ++ usb_opt c.usb))), ?_⟩
    rw [← h]
    simp [List.append_assoc]

theorem head_of_join (x : String) (R : List String) (hx : NoNL x) :
    (splitLines (pyJoin "\n" (x :: R))).head? = some x := by
  cases R with
  | nil => simp [pyJoin, splitLines_eq_self hx]
  | cons y t =>
    have hj : pyJoin "\n" (x :: y :: t) = x ++ "\n" ++ pyJoin "\n" (y :: t) := rfl
    rw [hj, splitLines_append_nl, splitLines_eq_self hx]
    simp

theorem count_dd_mc (o : Option String) : (dd_names o).count "MATRIX_COLS" = 0 := by
  cases o <;> rfl

theorem count_kn_mc (o : Option String) : (kn_names o).count "MATRIX_COLS" = 0 := by
  cases o <;> rfl

theorem count_mf_mc (o : Option String) : (mf_names o).count "MATRIX_COLS" = 0 := by
  cases o <;> rfl

theorem count_rows_mc (o : Option (List String)) : (rows_names o).count "MATRIX_COLS" = 0 := by
  cases o <;> rfl

theorem count_usbv_vid_mc (o : Option String) :
    (usbv_names "VENDOR_ID" o).count "MATRIX_COLS" = 0 := by
  cases o <;> rfl

theorem count_usbv_pid_mc (o : Option String) :
    (usbv_names "PRODUCT_ID" o).count "MATRIX_COLS" = 0 := by
  cases o <;> rfl

theorem count_usbv_dv_mc (o : Option String) :
    (usbv_names "DEVICE_VER" o).count "MATRIX_COLS" = 0 := by
  cases o <;> rfl

theorem count_usb_mc (ub : Option UsbRecord) : (usb_names_opt ub).count "MATRIX_COLS" = 0 := by
  cases ub with
  | none => rfl
  | some u =>
    simp [usb_names_opt, usb_names, List.count_append, count_usbv_vid_mc,
      count_usbv_pid_mc, count_usbv_dv_mc]

theorem count_dd_mr (o : Option String) : (dd_names o).count "MATRIX_ROWS" = 0 := by
  cases o <;> rfl

theorem count_kn_mr (o : Option String) : (kn_names o).count "MATRIX_ROWS" = 0 := by
  cases o <;> rfl

theorem count_mf_mr (o : Option String) : (mf_names o).count "MATRIX_ROWS" = 0 := by
  cases o <;> rfl

theorem count_cols_mr (o : Option (List String)) : (cols_names o).count "MATRIX_ROWS" = 0 := by
  cases o <;> rfl

theorem count_usbv_vid_mr (o : Option String) :
    (usbv_names "VENDOR_ID" o).count "MATRIX_ROWS" = 0 := by
  cases o <;> rfl

theorem count_usbv_pid_mr (o : Option String) :
    (usbv_names "PRODUCT_ID" o).count "MATRIX_ROWS" = 0 := by
  cases o <;> rfl

theorem count_usbv_dv_mr (o : Option String) :
    (usbv_names "DEVICE_VER" o).count "MATRIX_ROWS" = 0 := by
  cases o <;> rfl

theorem count_usb_mr (ub : Option UsbRecord) : (usb_names_opt ub).count "MATRIX_ROWS" = 0 := by
  cases ub with
  | none => rfl
  | some u =>
    simp [usb_names_opt, usb_names, List.count_append, count_usbv_vid_mr,
      count_usbv_pid_mr, count_usbv_dv_mr]

/-! ### Concrete records used by witnesses and counterexamples -/

/-- The empty record (scenario E). -/
def emptyRec : ConfigRecord := ⟨none, none, none, none, none⟩

/-- A record whose `matrix_pins.direct` is the empty grid — the input on
which the source's `direct_pins[0]` raises `IndexError`. -/
def emptyDirectRec : ConfigRecord := ⟨none, none, none, some ⟨some [], none, none⟩, none⟩

/-- A record with every optional field populated. -/
def fullRec : ConfigRecord :=
  ⟨some "COL2ROW", some "Board", some "Acme",
    some ⟨some [["A0", ""], ["B0", "B1"]], some ["C0", "C1"], some ["D0"]⟩,
    some ⟨some "0xFEED", some "0x6060", some "0x0001"⟩⟩

/-- Scenario B: cols and rows only. -/
def scenB : ConfigRecord := ⟨none, none, none, some ⟨none, some ["A0", "A1"], some ["B0"]⟩, none⟩

/-- Scenario C: a direct grid with an empty cell. -/
def scenC : ConfigRecord :=
  ⟨none, none, none, some ⟨some [["A0", "A1"], ["", "B1"]], none, none⟩, none⟩

/-- A small record used by the field-independence witness. -/
def sixRec : ConfigRecord := ⟨some "COL2ROW", none, some "Acme", none, none⟩

/-! ### The claims -/

/-- Claim C1 (counterexample): as stated over every ConfigRecord the claim
fails — a string value containing a newline smuggles an unguarded `#define`
line into the output.  At the concrete record whose diode direction is
"COL2ROW\n#define EVIL 1" the generated output contains a `#define` line
that is not flanked by its own guard. -/
theorem claim1_counterexample :
    ((config_h ⟨some "COL2ROW\n#define EVIL 1", none, none, none, none⟩).all
      fun s => guardedLines (splitLines s)) = false := by decide

/-- Claim C1 (amended): for every ConfigRecord whose string values contain
no newline character and whose `matrix_pins.direct`, when present, is
non-empty, every `#define` line of the generated output is immediately
preceded by an `#ifndef NAME` line for the same macro name and followed by
an `#endif // NAME` line; the output never contains an unguarded `#define`. -/
theorem claim1_theorem (c : ConfigRecord) (hn : noNLRecord c = true) (hd : directOK c = true) :
    ((config_h c).all fun s => guardedLines (splitLines s)) = true := by
  have hm := config_h_spec c hn hd
  cases hout : config_h c with
  | none => rw [hout] at hm; simp at hm
  | some out =>
    rw [hout] at hm
    simp only [Option.map_some', Option.some.injEq] at hm
    show guardedLines (splitLines out) = true
    rw [hm]
    exact (chunkOK_expected c).1

/-- Claim C1 (witness): the amended theorem applied at a record with every
field populated. -/
theorem claim1_witness :
    ((config_h fullRec).all fun s => guardedLines (splitLines s)) = true :=
  claim1_theorem fullRec (by decide) (by decide)

/-- Claim C2 (evaluation at the failing input): on a record whose
`matrix_pins.direct` is the empty grid, generation aborts (the source's
`direct_pins[0]` raises an uncaught `IndexError`, modelled by `none`) and
no header output is produced — but no reported configuration error is
raised, contrary to the claim. -/
theorem claim2_eval : config_h emptyDirectRec = none := rfl

/-- Claim C3 (counterexample): generate does not return a HeaderText for
every ConfigRecord — on the empty `direct` grid it aborts. -/
theorem claim3_counterexample : (config_h emptyDirectRec).isSome = false := rfl

/-- Claim C3 (amended): for every ConfigRecord whose `matrix_pins.direct`,
when present, is non-empty, generate terminates normally and returns a
HeaderText. -/
theorem claim3_theorem (c : ConfigRecord) (hd : directOK c = true) :
    ∃ s, config_h c = some s :=
  config_h_some c hd

/-- Claim C3 (witness): the amended theorem at a record with a non-empty
direct grid. -/
theorem claim3_witness : ∃ s, config_h fullRec = some s :=
  claim3_theorem fullRec (by decide)

/-- Claim C4: when `matrix_pins.direct` is present (and non-empty, and the
values are newline-free), the output contains the contiguous block defining
MATRIX_COLS as the length of the first row, MATRIX_ROWS as the number of
rows, and DIRECT_PINS as the rows rendered as brace-enclosed comma lists
with NO_PIN for empty cells, the grid brace-enclosed (see `directBlock`). -/
theorem claim4_theorem (c : ConfigRecord) (mp : MatrixPins) (d : List (List String))
    (hm : c.matrix_pins = some mp) (hdp : mp.direct = some d)
    (hn : noNLRecord c = true) (hd : directOK c = true) :
    ∃ out A B, config_h c = some out ∧ splitLines out = A ++ directBlock d ++ B := by
  have hspec := config_h_spec c hn hd
  cases hout : config_h c with
  | none => rw [hout] at hspec; simp at hspec
  | some out =>
    rw [hout] at hspec
    simp only [Option.map_some', Option.some.injEq] at hspec
    refine ⟨out, headerLines ++ dd_blocks c.diode_direction ++ kn_blocks c.keyboard_name
      ++ mf_blocks c.manufacturer,
      cols_blocks mp.cols ++ rows_blocks mp.rows ++ usb_blocks c.usb, rfl, ?_⟩
    rw [hspec]
    simp [expectedLines, matrix_blocks_opt, hm, matrixBlocks, hdp, direct_blocks,
      List.append_assoc]

/-- Claim C4 (witness): scenario C — input with direct grid
[[A0, A1], [empty, B1]] yields MATRIX_COLS 2, MATRIX_ROWS 2 and
DIRECT_PINS with NO_PIN substituted for the empty cell. -/
theorem claim4_witness :
    (∃ out A B, config_h scenC = some out ∧
      splitLines out = A ++ directBlock [["A0", "A1"], ["", "B1"]] ++ B)
    ∧ directBlock [["A0", "A1"], ["", "B1"]] =
      ["", "#ifndef MATRIX_COLS", "#    define MATRIX_COLS 2", "#endif // MATRIX_COLS", "",
       "#ifndef MATRIX_ROWS", "#    define MATRIX_ROWS 2", "#endif // MATRIX_ROWS", "",
       "#ifndef DIRECT_PINS",
       "#    define DIRECT_PINS \x7b\x7bA0,A1\x7d,\x7bNO_PIN,B1\x7d\x7d",
       "#endif // DIRECT_PINS", ""] :=
  ⟨claim4_theorem scenC ⟨some [["A0", "A1"], ["", "B1"]], none, none⟩
    [["A0", "A1"], ["", "B1"]] rfl rfl (by decide) (by decide), by decide⟩

/-- Claim C5: for every ConfigRecord (with newline-free values and a
well-formed direct grid), the macro blocks in the output appear exactly in
the fixed order: diode direction, name (DESCRIPTION, PRODUCT),
manufacturer, matrix (direct, cols, rows), USB (vid, pid, device_ver) —
the `#ifndef` names of the output equal `macroOrder`. -/
theorem claim5_theorem (c : ConfigRecord) (hn : noNLRecord c = true) (hd : directOK c = true) :
    (config_h c).map (fun s => ifndefNames (splitLines s)) = some (macroOrder c) :=
  config_h_names c hn hd

/-- Claim C5 (witness): the ordering theorem at a record with every field
populated, where the order is the full fixed list. -/
theorem claim5_witness :
    ((config_h fullRec).map (fun s => ifndefNames (splitLines s)) = some (macroOrder fullRec))
    ∧ macroOrder fullRec = ["DIODE_DIRECTION", "DESCRIPTION", "PRODUCT", "MANUFACTURER",
        "MATRIX_COLS", "MATRIX_ROWS", "DIRECT_PINS", "MATRIX_COLS", "MATRIX_COL_PINS",
        "MATRIX_ROWS", "MATRIX_ROW_PINS", "VENDOR_ID", "PRODUCT_ID", "DEVICE_VER"] :=
  ⟨claim5_theorem fullRec (by decide) (by decide), by decide⟩

/-- Claim C6: removing one present optional field from the record removes
exactly that field's macro block from the generated output and leaves every
other block unchanged in content and relative order. -/
theorem claim6_theorem (c : ConfigRecord) (f : CfgField) (hp : presentField f c = true)
    (hd : directOK c = true) :
    ∃ A B, config_h c = some (pyJoin "\n" (A ++ fieldElems f c ++ B)) ∧
      config_h (eraseField f c) = some (pyJoin "\n" (A ++ B)) :=
  field_frame c f hp hd

/-- Claim C6 (witness): the frame theorem at a concrete record, removing
the manufacturer field. -/
theorem claim6_witness :
    ∃ A B, config_h sixRec = some (pyJoin "\n" (A ++ fieldElems CfgField.manu sixRec ++ B)) ∧
      config_h (eraseField CfgField.manu sixRec) = some (pyJoin "\n" (A ++ B)) :=
  claim6_theorem sixRec CfgField.manu (by decide) (by decide)

/-- Claim C7: when `matrix_pins.cols` (respectively `matrix_pins.rows`) is
present, the output contains the contiguous block defining MATRIX_COLS
(MATRIX_ROWS) as the sequence length and MATRIX_COL_PINS (MATRIX_ROW_PINS)
as the pins comma-joined and brace-enclosed (see `colsBlock`/`rowsBlock`). -/
theorem claim7_theorem (c : ConfigRecord) (mp : MatrixPins) (hm : c.matrix_pins = some mp)
    (hn : noNLRecord c = true) (hd : directOK c = true) :
    (∀ cp, mp.cols = some cp → ∃ out A B, config_h c = some out ∧
      splitLines out = A ++ colsBlock cp ++ B)
    ∧ (∀ rp, mp.rows = some rp → ∃ out A B, config_h c = some out ∧
      splitLines out = A ++ rowsBlock rp ++ B) := by
  have hspec := config_h_spec c hn hd
  cases hout : config_h c with
  | none => rw [hout] at hspec; simp at hspec
  | some out =>
    rw [hout] at hspec
    simp only [Option.map_some', Option.some.injEq] at hspec
    constructor
    · intro cp hcp
      refine ⟨out, headerLines ++ dd_blocks c.diode_direction ++ kn_blocks c.keyboard_name
        ++ mf_blocks c.manufacturer ++ direct_blocks mp.direct,
        rows_blocks mp.rows ++ usb_blocks c.usb, rfl, ?_⟩
      rw [hspec]
      simp [expectedLines, matrix_blocks_opt, hm, matrixBlocks, hcp, cols_blocks,
        List.append_assoc]
    · intro rp hrp
      refine ⟨out, headerLines ++ dd_blocks c.diode_direction ++ kn_blocks c.keyboard_name
        ++ mf_blocks c.manufacturer ++ direct_blocks mp.direct ++ cols_blocks mp.cols,
        usb_blocks c.usb, rfl, ?_⟩
      rw [hspec]
      simp [expectedLines, matrix_blocks_opt, hm, matrixBlocks, hrp, rows_blocks,
        List.append_assoc]

/-- Claim C7 (witness): scenario B — cols [A0, A1] and rows [B0] yield
MATRIX_COLS 2, MATRIX_COL_PINS with braces, MATRIX_ROWS 1, MATRIX_ROW_PINS
with braces. -/
theorem claim7_witness :
    (∃ out A B, config_h scenB = some out ∧
      splitLines out = A ++ colsBlock ["A0", "A1"] ++ B)
    ∧ (∃ out A B, config_h scenB = some out ∧
      splitLines out = A ++ rowsBlock ["B0"] ++ B)
    ∧ colsBlock ["A0", "A1"] = ["", "#ifndef MATRIX_COLS", "#    define MATRIX_COLS 2",
        "#endif // MATRIX_COLS", "", "#ifndef MATRIX_COL_PINS",
        "#    define MATRIX_COL_PINS \x7bA0,A1\x7d", "#endif // MATRIX_COL_PINS", ""]
    ∧ rowsBlock ["B0"] = ["", "#ifndef MATRIX_ROWS", "#    define MATRIX_ROWS 1",
        "#endif // MATRIX_ROWS", "", "#ifndef MATRIX_ROW_PINS",
        "#    define MATRIX_ROW_PINS \x7bB0\x7d", "#endif // MATRIX_ROW_PINS", ""] :=
  ⟨(claim7_theorem scenB ⟨none, some ["A0", "A1"], some ["B0"]⟩ rfl (by decide) (by decide)).1
      ["A0", "A1"] rfl,
   (claim7_theorem scenB ⟨none, some ["A0", "A1"], some ["B0"]⟩ rfl (by decide) (by decide)).2
      ["B0"] rfl,
   by decide, by decide⟩

/-- Claim C8 (counterexample): the first line of the generated output is
not the literal claimed by the spec — at the empty record the first line
differs from "/* This file was generated by the config generator. Do not
edit or copy. */". -/
theorem claim8_counterexample :
    ¬((config_h emptyRec).map (fun s => (splitLines s).head?)
      = some (some "/* This file was generated by the config generator. Do not edit or copy. */")) := by
  decide

/-- Claim C8 (amended): for every ConfigRecord for which generation
produces output, the first line of that output is exactly the fixed
comment literal "/* This file was generated by `qmk generate-config-h`.
Do not edit or copy. */". -/
theorem claim8_theorem (c : ConfigRecord) (out : String) (h : config_h c = some out) :
    (splitLines out).head? =
      some "/* This file was generated by `qmk generate-config-h`. Do not edit or copy. */" := by
  unfold config_h at h
  cases hls : config_h_lines c with
  | none => rw [hls] at h; simp at h
  | some els =>
    rw [hls] at h
    simp only [Option.map_some', Option.some.injEq] at h
    obtain ⟨R, hR⟩ := config_h_lines_shape c els hls
    rw [← h, hR]
    exact head_of_join _ _ (by decide)

/-- Claim C8 (witness): the amended theorem at the empty record. -/
theorem claim8_witness :
    (splitLines "/* This file was generated by `qmk generate-config-h`. Do not edit or copy. */\n\n#pragma once").head?
      = some "/* This file was generated by `qmk generate-config-h`. Do not edit or copy. */" :=
  claim8_theorem emptyRec _ rfl

/-- Claim C9 (counterexample): at the empty record the output is not the
claimed two-line header — it has three lines (comment, blank, pragma), and
its comment literal differs from the spec's. -/
theorem claim9_counterexample :
    ¬((config_h emptyRec).map splitLines
      = some ["/* This file was generated by the config generator. Do not edit or copy. */",
        "#pragma once"])
    ∧ (config_h emptyRec).map (fun s => (splitLines s).length) = some 3 := by
  exact ⟨by decide, by decide⟩

/-- Claim C9 (amended): for the empty ConfigRecord the generated output is
exactly three lines: the fixed comment, a blank line, and `#pragma once`,
with no macro blocks. -/
theorem claim9_theorem :
    (config_h emptyRec).map splitLines =
      some ["/* This file was generated by `qmk generate-config-h`. Do not edit or copy. */",
        "", "#pragma once"] := by
  decide

/-- Claim C10: when matrix_pins contains both `direct` and `cols`
(respectively `direct` and `rows`), the guarded MATRIX_COLS (MATRIX_ROWS)
definition block appears twice in the output — once from the direct block
and once from the cols (rows) block; nothing is deduplicated. -/
theorem claim10_theorem (c : ConfigRecord) (mp : MatrixPins) (hm : c.matrix_pins = some mp)
    (hn : noNLRecord c = true) (hd : directOK c = true) :
    (∀ d cp, mp.direct = some d → mp.cols = some cp →
      (config_h c).map (fun s => (ifndefNames (splitLines s)).count "MATRIX_COLS") = some 2)
    ∧ (∀ d rp, mp.direct = some d → mp.rows = some rp →
      (config_h c).map (fun s => (ifndefNames (splitLines s)).count "MATRIX_ROWS") = some 2) := by
  have hnames := config_h_names c hn hd
  have hcomp : ∀ a : String, (config_h c).map (fun s => (ifndefNames (splitLines s)).count a)
      = ((config_h c).map (fun s => ifndefNames (splitLines s))).map (fun l => l.count a) := by
    intro a; cases config_h c <;> rfl
  constructor
  · intro d cp hdp hcp
    rw [hcomp, hnames, Option.map_some']
    have h1 : (direct_names (some d)).count "MATRIX_COLS" = 1 := rfl
    have h2 : (cols_names (some cp)).count "MATRIX_COLS" = 1 := rfl
    simp [macroOrder, List.count_append, count_dd_mc, count_kn_mc, count_mf_mc,
      mp_names_opt, hm, mp_names, hdp, hcp, h1, h2, count_rows_mc, count_usb_mc]
  · intro d rp hdp hrp
    rw [hcomp, hnames, Option.map_some']
    have h1 : (direct_names (some d)).count "MATRIX_ROWS" = 1 := rfl
    have h2 : (rows_names (some rp)).count "MATRIX_ROWS" = 1 := rfl
    simp [macroOrder, List.count_append, count_dd_mr, count_kn_mr, count_mf_mr,
      mp_names_opt, hm, mp_names, hdp, hrp, h1, h2, count_cols_mr, count_usb_mr]

/-- Claim C10 (witness): the duplication theorem at a record with direct,
cols and rows all present. -/
theorem claim10_witness :
    ((config_h fullRec).map (fun s => (ifndefNames (splitLines s)).count "MATRIX_COLS") = some 2)
    ∧ ((config_h fullRec).map (fun s => (ifndefNames (splitLines s)).count "MATRIX_ROWS") = some 2) :=
  ⟨(claim10_theorem fullRec ⟨some [["A0", ""], ["B0", "B1"]], some ["C0", "C1"], some ["D0"]⟩
      rfl (by decide) (by decide)).1 _ _ rfl rfl,
   (claim10_theorem fullRec ⟨some [["A0", ""], ["B0", "B1"]], some ["C0", "C1"], some ["D0"]⟩
      rfl (by decide) (by decide)).2 _ _ rfl rfl⟩
